import Mathlib

/-
Verification of the floating-time ICS calendar sync application.

The development embeds the core of src/app.py: CSV header validation
(validate_csv), natural-key derivation (create_unique_key), row parsing
(parse_event), reconciliation of an incoming batch against the persisted
store (sync_events), ICS document generation for the free and busy
variants (generate_ics_free_all_day / generate_ics_busy_all_day including
the trailing Z stripping pass), and stable gist URL derivation
(update_gist_ics_free / update_gist_ics_busy).

Python strings are modelled as Lean String values (reasoned about through
their underlying character lists), datetimes as integer second counts,
the SQLAlchemy events table as an association list keyed by unique_key,
and Python dicts as association lists built by last-value-wins insertion.
The third-party serialization primitive (the ics library) and the store
commit boundary are not part of the repository; they are modelled from
the specification where noted.
-/

namespace CalSync

/-- Persisted event record: the five mutable columns of the events table
(EventRecord in src/app.py). The surrogate integer primary key plays no
role in the verified behaviour, and the unique_key column is modelled as
the key position of the association list that models the table. -/
structure EventRecord where
  subject : String
  start_datetime : Int
  end_datetime : Int
  location : String
  description : String
deriving DecidableEq

/-- The persisted store: association list from unique_key to record. -/
abbrev Store := List (String × EventRecord)

/-- First-match association-list lookup, the observable read of a store
or of a Python dict (whose keys are unique once built). -/
def lookup (m : Store) (k : String) : Option EventRecord :=
  match m with
  | [] => none
  | p :: rest => if p.1 = k then some p.2 else lookup rest k

/-- Python dict insertion: overwrite the value in place when the key is
present, append a fresh binding otherwise. -/
def dict_insert (m : Store) (k : String) (v : EventRecord) : Store :=
  if m.any (fun p => decide (p.1 = k)) then
    m.map (fun p => if p.1 = k then (k, v) else p)
  else m ++ [(k, v)]

/-- Python dict comprehension over an association list: first-occurrence
order, last value wins (the duplicate-key collapse quirk of the source). -/
def dict_of (l : Store) : Store :=
  l.foldl (fun m p => dict_insert m p.1 p.2) []

/-- The five field-by-field inequality tests of the to_potentially_update
branch of sync_events (src/app.py lines 97-101). -/
def fieldsDiffer (e i : EventRecord) : Bool :=
  decide (e.subject ≠ i.subject) ||
  decide (e.start_datetime ≠ i.start_datetime) ||
  decide (e.end_datetime ≠ i.end_datetime) ||
  decide (e.location ≠ i.location) ||
  decide (e.description ≠ i.description)

/-- The whole-record overwrite of the update branch: all five fields are
assigned from the incoming event (src/app.py lines 102-106). -/
def overwrite (e i : EventRecord) : EventRecord :=
  { e with
    subject := i.subject
    start_datetime := i.start_datetime
    end_datetime := i.end_datetime
    location := i.location
    description := i.description }

/-- Result of one sync cycle: the store after the mutations plus the
three reported subject lists. -/
structure SyncResult where
  store : Store
  added : List String
  updated : List String
  deleted : List String
deriving DecidableEq

/-- sync_events (src/app.py lines 62-117): build the existing and
incoming key maps, partition the keys into to_add, to_remove and the
intersection, create a record per to_add key, overwrite all five fields
where any of the five differs (recording the incoming subject), delete
the to_remove records (recording the stored subject). The store field is
the table after commit: surviving rows in table order followed by the
freshly inserted rows. -/
def sync_events (existing_list incoming_list : Store) : SyncResult :=
  let existing_map := dict_of existing_list
  let incoming_map := dict_of incoming_list
  let existing_keys := existing_map.map Prod.fst
  let incoming_keys := incoming_map.map Prod.fst
  let to_add := incoming_map.filter (fun p => decide (p.1 ∉ existing_keys))
  let to_remove := existing_map.filter (fun p => decide (p.1 ∉ incoming_keys))
  let to_check := existing_map.filterMap (fun p =>
    (lookup incoming_map p.1).map (fun i => (p.1, p.2, i)))
  { store := to_check.map (fun t =>
        (t.1, if fieldsDiffer t.2.1 t.2.2 then overwrite t.2.1 t.2.2 else t.2.1)) ++ to_add
    added := to_add.map (fun p => p.2.subject)
    updated := (to_check.filter (fun t => fieldsDiffer t.2.1 t.2.2)).map
        (fun t => t.2.2.subject)
    deleted := to_remove.map (fun p => p.2.subject) }

/-- One raw CSV row: the seven required columns as unreformatted text. -/
structure Row where
  subject : String
  startDate : String
  startTime : String
  endDate : String
  endTime : String
  location : String
  description : String

/-- create_unique_key (src/app.py lines 44-45): the raw Subject,
Start Date and Start Time strings joined with pipe separators. -/
def create_unique_key (row : Row) : String :=
  row.subject ++ "|" ++ row.startDate ++ "|" ++ row.startTime

/-- parse_event (src/app.py lines 47-60). The locale-aware date_parse
primitive is abstracted as a parameter parseDT returning the parsed
point in time in seconds, or none on a ParseError. -/
def parse_event (parseDT : String → Option Int) (row : Row) :
    Option (String × EventRecord) :=
  match parseDT (row.startDate ++ " " ++ row.startTime),
        parseDT (row.endDate ++ " " ++ row.endTime) with
  | some s, some e =>
      some (create_unique_key row,
        { subject := row.subject
          start_datetime := s
          end_datetime := e
          location := row.location
          description := row.description })
  | _, _ => none

/-- The list comprehension of src/app.py line 66: parse every row, the
first ParseError aborting the whole batch before any store mutation. -/
def parse_rows (parseDT : String → Option Int) : List Row → Option Store
  | [] => some []
  | row :: rest =>
    match parse_event parseDT row, parse_rows parseDT rest with
    | some e, some es => some (e :: es)
    | _, _ => none

/-- Modelled from the spec: the store contract commit boundary of
session.commit(), whose backing engine is outside the repository. Either
the whole plan commits, or the commit fails and the persisted state is
unchanged (StoreError semantics of section 7 of the spec). The outcome
is an oracle parameter. -/
def commit_store (ok : Bool) (oldStore newStore : Store) : Store × Bool :=
  if ok then (newStore, true) else (oldStore, false)

/-- The full sync cycle as observed by the caller: parse all rows, run
the reconciliation plan, commit. On a ParseError or a failed commit the
caller sees the untouched store and no summary. -/
def sync_events_tx (parseDT : String → Option Int) (commitOk : Bool)
    (store : Store) (rows : List Row) :
    Store × Option (List String × List String × List String) :=
  match parse_rows parseDT rows with
  | none => (store, none)
  | some incoming =>
    let r := sync_events store incoming
    match commit_store commitOk store r.store with
    | (st, true) => (st, some (r.added, r.updated, r.deleted))
    | (st, false) => (st, none)

/-- The seven required CSV columns (src/app.py line 38). -/
def required_columns : List String :=
  ["Subject", "Start Date", "Start Time", "End Date", "End Time",
   "Location", "Description"]

/-- validate_csv (src/app.py lines 37-42): the loop returns on the first
missing column; only the column headers are inspected, never the values. -/
def validate_csv (columns : List String) : Bool × String :=
  match required_columns.find? (fun col => !(columns.contains col)) with
  | some col => (false, "Missing required column: " ++ col)
  | none => (true, "")

/-- The upload flow of src/app.py lines 269-278: validation gates the
sync; an invalid header list rejects the batch before any parsing. -/
def process_upload (parseDT : String → Option Int) (commitOk : Bool)
    (store : Store) (columns : List String) (rows : List Row) :
    Store × Option (List String × List String × List String) :=
  if (validate_csv columns).1 then sync_events_tx parseDT commitOk store rows
  else (store, none)

/-- The update pass of sync_events, as a standalone term for reuse. -/
def check_part (ex inc : Store) : Store :=
  (ex.filterMap (fun p => (lookup inc p.1).map (fun i => (p.1, p.2, i)))).map
    (fun t => (t.1, if fieldsDiffer t.2.1 t.2.2 then overwrite t.2.1 t.2.2 else t.2.1))

/-! Character-level model of the Python string operations used by the
document generators and the URL derivation. -/

/-- Python str.startswith, by recursion on the pattern characters. -/
def listLeads : List Char → List Char → Bool
  | [], _ => true
  | _ :: _, [] => false
  | p :: ps, t :: ts => decide (p = t) && listLeads ps ts

/-- Python line.startswith(pat) over the underlying character lists. -/
def strStartsWith (s pat : String) : Bool := listLeads pat.data s.data

/-- Last character of a character list, none when empty. -/
def lastOf : List Char → Option Char
  | [] => none
  | c :: rest =>
    match lastOf rest with
    | some d => some d
    | none => some c

/-- Python line.endswith(c) for a one-character suffix. -/
def endsWithChar (s : String) (c : Char) : Bool :=
  match lastOf s.data with
  | some d => decide (d = c)
  | none => false

/-- Python substring containment: needle in haystack. -/
def strContains (hay needle : String) : Bool :=
  hay.data.tails.any (fun t => listLeads needle.data t)

/-- Python s[:-1]. -/
def strDropLast (s : String) : String := String.mk s.data.dropLast

/-- Python s[n:]. -/
def strDropN (s : String) (n : Nat) : String := String.mk (s.data.drop n)

/-- Decimal digit character. -/
def digitChar (d : Nat) : Char := Char.ofNat (48 + d)

/-- Decimal digits of a natural number, most significant first; the fuel
argument keeps the recursion structural. -/
def natDigitsFuel : Nat → Nat → List Char
  | 0, _ => []
  | fuel + 1, n =>
    if n < 10 then [digitChar n]
    else natDigitsFuel fuel (n / 10) ++ [digitChar (n % 10)]

def natDigits (n : Nat) : List Char := natDigitsFuel (n + 1) n

def intDigits (n : Int) : List Char :=
  if n < 0 then '-' :: natDigits n.natAbs else natDigits n.toNat

/-- Modelled from the spec: a serialized point-in-time value. The real
primitive formats a timestamp as date and time digits; the model keeps
the decimal second count, preserving what matters to the claims: the
value is a nonempty digit string and timed properties receive a trailing
UTC marker on top of it. -/
def fmtDT (n : Int) : String := String.mk (intDigits n)

/-- Modelled from the spec: the date-only value of a whole-day entity,
computed from the date component (the day number) of the timestamp. -/
def fmtDate (n : Int) : String := String.mk (intDigits (Int.fdiv n 86400))

/-- Modelled from the spec: the ICS entity handed to the external
serialization primitive: name, begin, end, the whole-day flag set by
make_all_day, optional transparency, location, uid, creation stamp. -/
structure IcsEvent where
  name : String
  begin_dt : Int
  end_dt : Int
  isAllDay : Bool
  transp : Option String
  uid : String
  location : String
  created : Int

/-- The per-event construction of generate_ics_free_all_day (src/app.py
lines 126-152): naive begin and end, classification by the 23-hour
duration threshold (the float comparison total_seconds()/3600 >= 23 is
the integer comparison on seconds), the long-form branch calling
make_all_day and setting TRANSPARENT, the uid set to the unique key and
the creation stamp to the generation clock. -/
def buildIcsEventFree (now : Int) (key : String) (ev : EventRecord) : IcsEvent :=
  let duration := ev.end_datetime - ev.start_datetime
  let is_24_hour_event := decide (23 * 3600 ≤ duration)
  if is_24_hour_event then
    { name := ev.subject, begin_dt := ev.start_datetime,
      end_dt := ev.end_datetime, isAllDay := true,
      transp := some "TRANSPARENT", uid := key, location := ev.location,
      created := now }
  else
    { name := ev.subject, begin_dt := ev.start_datetime,
      end_dt := ev.end_datetime, isAllDay := false, transp := none,
      uid := key, location := ev.location, created := now }

/-- The per-event construction of generate_ics_busy_all_day (src/app.py
lines 173-199): identical to the free variant except that long-form
events are marked OPAQUE. -/
def buildIcsEventBusy (now : Int) (key : String) (ev : EventRecord) : IcsEvent :=
  let duration := ev.end_datetime - ev.start_datetime
  let is_24_hour_event := decide (23 * 3600 ≤ duration)
  if is_24_hour_event then
    { name := ev.subject, begin_dt := ev.start_datetime,
      end_dt := ev.end_datetime, isAllDay := true,
      transp := some "OPAQUE", uid := key, location := ev.location,
      created := now }
  else
    { name := ev.subject, begin_dt := ev.start_datetime,
      end_dt := ev.end_datetime, isAllDay := false, transp := none,
      uid := key, location := ev.location, created := now }

/-- Modelled from the spec: one serialized VEVENT block of the external
primitive, one property per line. Timed values are marked as UTC with a
trailing Z (the primitive defaults to that for naive values); whole-day
entities are emitted date-only and unmarked; the creation stamp is a
timed value and is likewise marked. -/
def renderEventLines (e : IcsEvent) : List String :=
  ["BEGIN:VEVENT"] ++
  (if e.isAllDay then
    ["DTSTART;VALUE=DATE:" ++ fmtDate e.begin_dt,
     "DTEND;VALUE=DATE:" ++ fmtDate e.end_dt]
   else
    ["DTSTART:" ++ fmtDT e.begin_dt ++ "Z",
     "DTEND:" ++ fmtDT e.end_dt ++ "Z"]) ++
  ["DTSTAMP:" ++ fmtDT e.created ++ "Z"] ++
  (match e.transp with
   | some t => ["TRANSP:" ++ t]
   | none => []) ++
  ["SUMMARY:" ++ e.name, "LOCATION:" ++ e.location, "UID:" ++ e.uid,
   "END:VEVENT"]

def renderEventsLines : List IcsEvent → List String
  | [] => []
  | e :: rest => renderEventLines e ++ renderEventsLines rest

/-- Modelled from the spec: the rendered document str(cal) as the list
of its lines (the splitlines of the source), one block per event inside
the calendar begin and end markers. -/
def renderCalendarLines (evs : List IcsEvent) : List String :=
  ["BEGIN:VCALENDAR", "VERSION:2.0", "PRODID:ics.py"] ++
  renderEventsLines evs ++ ["END:VCALENDAR"]

/-- The trailing Z cleanup pass of both generators (src/app.py lines
156-161 and 203-208): a line that starts with DTSTART: or DTEND: and
ends with Z loses its final character; every other line passes through
unchanged. -/
def strip_tz_line (line : String) : String :=
  if (strStartsWith line "DTSTART:" || strStartsWith line "DTEND:") &&
      endsWithChar line 'Z' then
    strDropLast line
  else line

/-- generate_ics_free_all_day (src/app.py lines 119-164), as the list of
lines of the returned document, at a fixed generation clock. -/
def generate_ics_free_lines (now : Int) (events : Store) : List String :=
  (renderCalendarLines (events.map (fun p => buildIcsEventFree now p.1 p.2))).map
    strip_tz_line

/-- generate_ics_busy_all_day (src/app.py lines 166-211), as lines. -/
def generate_ics_busy_lines (now : Int) (events : Store) : List String :=
  (renderCalendarLines (events.map (fun p => buildIcsEventBusy now p.1 p.2))).map
    strip_tz_line

def strJoinLines : List String → String
  | [] => ""
  | [l] => l
  | l :: l2 :: rest => l ++ "\n" ++ strJoinLines (l2 :: rest)

/-- The returned free document text: cleaned lines joined by newlines. -/
def generate_ics_free_all_day (now : Int) (events : Store) : String :=
  strJoinLines (generate_ics_free_lines now events)

/-- The returned busy document text. -/
def generate_ics_busy_all_day (now : Int) (events : Store) : String :=
  strJoinLines (generate_ics_busy_lines now events)

/-- Collect the SUMMARY property values of a rendered document. -/
def extractSummaries (lines : List String) : List String :=
  lines.filterMap (fun l =>
    if strStartsWith l "SUMMARY:" then some (strDropN l 8) else none)

/-- Collect the UID property values of a rendered document. -/
def extractUIDs (lines : List String) : List String :=
  lines.filterMap (fun l =>
    if strStartsWith l "UID:" then some (strDropN l 4) else none)

/-- Replace the value of every TRANSP property line by a fixed
placeholder: two documents agree after masking iff they differ at most
in transparency values. -/
def maskTransp (l : String) : String :=
  if strStartsWith l "TRANSP:" then "TRANSP:MASKED" else l

/-- Python raw_url.split(sep) for a one-character separator. -/
def splitChar (c : Char) : List Char → List (List Char)
  | [] => [[]]
  | a :: rest =>
    let r := splitChar c rest
    if a = c then [] :: r
    else (a :: r.headD []) :: r.tail

/-- Join URL segments with slash separators, the shape of the
revision-specific raw_url the remote host returns. -/
def joinSlash : List (List Char) → List Char
  | [] => []
  | [x] => x
  | x :: y :: rest => x ++ '/' :: joinSlash (y :: rest)

/-- update_gist_ics_free (src/app.py lines 213-235), modelling the remote
call by the revision-specific raw_url its response embeds: split on
slashes, take parts 3 and 4 (owner and gist id), rebuild the fixed
stable URL for the events-free.ics slot; none models the IndexError on a
too-short URL. -/
def update_gist_ics_free (raw_url : String) : Option String :=
  let parts := splitChar '/' raw_url.data
  match parts.get? 3, parts.get? 4 with
  | some username, some gist_id =>
      some ("https://gist.githubusercontent.com/" ++ String.mk username ++
        "/" ++ String.mk gist_id ++ "/raw/events-free.ics")
  | _, _ => none

/-- update_gist_ics_busy (src/app.py lines 237-259): the same derivation
for the events-busy.ics slot. -/
def update_gist_ics_busy (raw_url : String) : Option String :=
  let parts := splitChar '/' raw_url.data
  match parts.get? 3, parts.get? 4 with
  | some username, some gist_id =>
      some ("https://gist.githubusercontent.com/" ++ String.mk username ++
        "/" ++ String.mk gist_id ++ "/raw/events-busy.ics")
  | _, _ => none

/-- The shape of the revision-specific raw_url embedded in the remote
host response: the URL whose slash-separated components are the scheme,
an empty component, the host, the owner, the collection id, the fixed
raw marker, the revision segment and the filename. -/
def rawGistUrl (user gid rev file : String) : String :=
  String.mk (joinSlash [("https:" : String).data, [],
    ("gist.githubusercontent.com" : String).data, user.data, gid.data,
    ("raw" : String).data, rev.data, file.data])

/-- Sample record: a one-hour timed event. -/
def evA : EventRecord :=
  { subject := "Meeting", start_datetime := 32400, end_datetime := 36000,
    location := "Room1", description := "" }

/-- Sample record: a second one-hour timed event. -/
def evB : EventRecord :=
  { subject := "Review", start_datetime := 50400, end_datetime := 54000,
    location := "Room2", description := "notes" }

/-- Sample record: a 23.5-hour event starting away from midnight. -/
def evLong : EventRecord :=
  { subject := "Offsite", start_datetime := 30600, end_datetime := 115200,
    location := "", description := "" }

/-- Sample raw row matching the first testable scenario of the spec. -/
def rowMeeting : Row :=
  { subject := "Meeting", startDate := "2024-01-10", startTime := "09:00",
    endDate := "2024-01-10", endTime := "10:00", location := "Room1",
    description := "" }

/-- A date-time parser that rejects every string, for ParseError cases. -/
def parseFail : String → Option Int := fun _ => none

/-! Association-list lemmas for the store model. -/

theorem lookup_eq_none (m : Store) (k : String) :
    lookup m k = none ↔ k ∉ m.map Prod.fst := by
  induction m with
  | nil => simp [lookup]
  | cons p rest ih =>
    by_cases hk : p.1 = k
    · subst hk; simp [lookup]
    · simp [lookup, hk, ih, Ne.symm hk]

theorem mem_of_lookup_eq_some {m : Store} {k : String} {v : EventRecord}
    (h : lookup m k = some v) : (k, v) ∈ m := by
  induction m with
  | nil => simp [lookup] at h
  | cons p rest ih =>
    by_cases hk : p.1 = k
    · subst hk
      simp [lookup] at h
      subst h
      exact List.mem_cons_self _ _
    · simp [lookup, hk] at h
      exact List.mem_cons_of_mem _ (ih h)

theorem lookup_eq_some_of_mem {m : Store} {k : String} {v : EventRecord}
    (hnd : (m.map Prod.fst).Nodup) (h : (k, v) ∈ m) : lookup m k = some v := by
  induction m with
  | nil => simp at h
  | cons p rest ih =>
    have hnd2 : (p.1 :: rest.map Prod.fst).Nodup := by simpa using hnd
    have hpk : p.1 ∉ rest.map Prod.fst := (List.nodup_cons.mp hnd2).1
    have hnd' : (rest.map Prod.fst).Nodup := (List.nodup_cons.mp hnd2).2
    rcases List.mem_cons.mp h with h | h
    · subst h; simp [lookup]
    · have hk : p.1 ≠ k := by
        intro hkk
        exact hpk (hkk ▸ List.mem_map_of_mem Prod.fst h)
      simp [lookup, hk, ih hnd' h]

theorem lookup_append (a b : Store) (k : String) :
    lookup (a ++ b) k =
      match lookup a k with
      | some v => some v
      | none => lookup b k := by
  induction a with
  | nil => simp [lookup]
  | cons p rest ih =>
    by_cases hk : p.1 = k
    · subst hk; simp [lookup]
    · simp [lookup, hk, ih]

theorem lookup_filter_key (m : Store) (q : String → Bool) (k : String) :
    lookup (m.filter (fun p => q p.1)) k =
      if q k then lookup m k else none := by
  induction m with
  | nil => simp [lookup]
  | cons p rest ih =>
    by_cases hk : p.1 = k
    · subst hk
      cases hq : q p.1 <;> simp [List.filter_cons, hq, lookup, ih]
    · cases hq : q p.1 <;> simp [List.filter_cons, hq, lookup, hk, ih]

theorem any_key_eq (m : Store) (k : String) :
    (m.any (fun p => decide (p.1 = k))) = true ↔ k ∈ m.map Prod.fst := by
  simp [List.any_eq_true]

theorem foldl_dict_insert (l : Store) : ∀ m : Store,
    ((m ++ l).map Prod.fst).Nodup →
    l.foldl (fun m p => dict_insert m p.1 p.2) m = m ++ l := by
  induction l with
  | nil => intro m _; simp
  | cons p rest ih =>
    intro m h
    have hmap : ((m ++ p :: rest).map Prod.fst) =
        m.map Prod.fst ++ p.1 :: rest.map Prod.fst := by simp
    rw [hmap] at h
    have hdisj := (List.nodup_append.mp h).2.2
    have hk : p.1 ∉ m.map Prod.fst := by
      intro hmem
      exact hdisj hmem (List.mem_cons_self _ _)
    have hins : dict_insert m p.1 p.2 = m ++ [p] := by
      have hany : (m.any (fun q => decide (q.1 = p.1))) = false := by
        rw [Bool.eq_false_iff]
        intro hc
        exact hk ((any_key_eq m p.1).mp hc)
      simp [dict_insert, hany]
    have hnd' : (((m ++ [p]) ++ rest).map Prod.fst).Nodup := by
      simpa [List.append_assoc] using h
    calc (p :: rest).foldl (fun m p => dict_insert m p.1 p.2) m
        = rest.foldl (fun m p => dict_insert m p.1 p.2) (m ++ [p]) := by
          simp [List.foldl_cons, hins]
      _ = (m ++ [p]) ++ rest := ih (m ++ [p]) hnd'
      _ = m ++ p :: rest := by simp

theorem dict_of_eq_self (l : Store) (h : (l.map Prod.fst).Nodup) :
    dict_of l = l := by
  simpa using foldl_dict_insert l [] (by simpa using h)

theorem overwrite_eq (e i : EventRecord) : overwrite e i = i := by
  cases e; cases i; rfl

theorem fieldsDiffer_eq_false_iff (e i : EventRecord) :
    fieldsDiffer e i = false ↔ e = i := by
  cases e; cases i
  simp [fieldsDiffer, EventRecord.mk.injEq, and_assoc]

theorem lookup_check_part (inc : Store) : ∀ ex : Store,
    (ex.map Prod.fst).Nodup → ∀ k,
    lookup (check_part ex inc) k =
      match lookup ex k with
      | some e => (lookup inc k).map (fun i =>
          if fieldsDiffer e i then overwrite e i else e)
      | none => none := by
  intro ex
  induction ex with
  | nil => intro _ k; simp [check_part, lookup]
  | cons p rest ih =>
    intro hnd k
    have hnd2 : (p.1 :: rest.map Prod.fst).Nodup := by simpa using hnd
    have hpk : p.1 ∉ rest.map Prod.fst := (List.nodup_cons.mp hnd2).1
    have hnd' : (rest.map Prod.fst).Nodup := (List.nodup_cons.mp hnd2).2
    cases hinc : lookup inc p.1 with
    | none =>
      by_cases hk : p.1 = k
      · subst hk
        have hrest : lookup rest p.1 = none := (lookup_eq_none rest p.1).mpr hpk
        simp [check_part, List.filterMap_cons, hinc, lookup]
        have := ih hnd' p.1
        simp [check_part] at this
        rw [this, hrest]
      · have := ih hnd' k
        simp [check_part] at this
        simp [check_part, List.filterMap_cons, hinc, lookup, hk, this]
    | some i =>
      by_cases hk : p.1 = k
      · subst hk
        simp [check_part, List.filterMap_cons, hinc, lookup]
      · have := ih hnd' k
        simp [check_part] at this
        simp [check_part, List.filterMap_cons, hinc, lookup, hk, this]

/-- Observable content of the store produced by sync_events: to_add keys
take the incoming record, intersection keys take the (possibly
overwritten) record, to_remove keys are gone. -/
theorem lookup_sync_store (ex inc : Store)
    (hex : (ex.map Prod.fst).Nodup) (hin : (inc.map Prod.fst).Nodup)
    (k : String) :
    lookup (sync_events ex inc).store k =
      match lookup ex k, lookup inc k with
      | some e, some i => some (if fieldsDiffer e i then overwrite e i else e)
      | none, some i => some i
      | _, none => none := by
  have hstore : (sync_events ex inc).store =
      check_part ex inc ++
        inc.filter (fun p => decide (p.1 ∉ ex.map Prod.fst)) := by
    simp only [sync_events]
    rw [dict_of_eq_self ex hex, dict_of_eq_self inc hin]
    rfl
  rw [hstore, lookup_append, lookup_check_part inc ex hex k,
    lookup_filter_key inc (fun x => decide (x ∉ ex.map Prod.fst)) k]
  cases hek : lookup ex k with
  | some e =>
    have hkex : k ∈ ex.map Prod.fst := by
      by_contra hc
      rw [(lookup_eq_none ex k).mpr hc] at hek
      exact Option.noConfusion hek
    cases hik : lookup inc k <;> simp [hkex]
  | none =>
    have hkex : k ∉ ex.map Prod.fst := (lookup_eq_none ex k).mp hek
    cases hik : lookup inc k <;> simp [hkex, hik]

theorem updated_eq (inc : Store) : ∀ ex : Store,
    ((ex.filterMap (fun p => (lookup inc p.1).map (fun i => (p.1, p.2, i)))).filter
        (fun t => fieldsDiffer t.2.1 t.2.2)).map (fun t => t.2.2.subject) =
      ex.filterMap (fun p =>
        match lookup inc p.1 with
        | some i => if fieldsDiffer p.2 i then some i.subject else none
        | none => none) := by
  intro ex
  induction ex with
  | nil => simp
  | cons p rest ih =>
    cases hinc : lookup inc p.1 with
    | none => simp [List.filterMap_cons, hinc, ih]
    | some i =>
      cases hd : fieldsDiffer p.2 i <;>
        simp [List.filterMap_cons, hinc, hd, List.filter_cons, ih]

theorem sync_events_unfold (ex inc : Store)
    (hex : (ex.map Prod.fst).Nodup) (hin : (inc.map Prod.fst).Nodup) :
    sync_events ex inc =
      { store := check_part ex inc ++
          inc.filter (fun p => decide (p.1 ∉ ex.map Prod.fst))
        added := (inc.filter (fun p => decide (p.1 ∉ ex.map Prod.fst))).map
          (fun p => p.2.subject)
        updated := ((ex.filterMap (fun p =>
            (lookup inc p.1).map (fun i => (p.1, p.2, i)))).filter
            (fun t => fieldsDiffer t.2.1 t.2.2)).map (fun t => t.2.2.subject)
        deleted := (ex.filter (fun p => decide (p.1 ∉ inc.map Prod.fst))).map
          (fun p => p.2.subject) } := by
  simp only [sync_events]
  rw [dict_of_eq_self ex hex, dict_of_eq_self inc hin]
  rfl

/-- Claim C1: sync partitions the keys into the three disjoint sets
to_add, to_remove and the intersection; it creates one record per to_add
key (reporting the incoming subject), deletes each to_remove record
(reporting the stored subject), compares the five fields of each
intersection key by exact equality and overwrites all five fields,
reporting the incoming subject as updated iff at least one field
differs; the three reported lists are exactly the subjects of the events
in those three outcomes. -/
theorem sync_events_plan_correct (existing incoming : Store)
    (hex : (existing.map Prod.fst).Nodup)
    (hin : (incoming.map Prod.fst).Nodup) :
    (∀ k i, lookup existing k = none → lookup incoming k = some i →
        lookup (sync_events existing incoming).store k = some i ∧
        i.subject ∈ (sync_events existing incoming).added) ∧
    (∀ k e, lookup existing k = some e → lookup incoming k = none →
        lookup (sync_events existing incoming).store k = none ∧
        e.subject ∈ (sync_events existing incoming).deleted) ∧
    (∀ k e i, lookup existing k = some e → lookup incoming k = some i →
        lookup (sync_events existing incoming).store k =
          some (if fieldsDiffer e i then overwrite e i else e) ∧
        overwrite e i = i ∧ (fieldsDiffer e i = false → e = i)) ∧
    (sync_events existing incoming).added =
      (incoming.filter (fun p => decide (p.1 ∉ existing.map Prod.fst))).map
        (fun p => p.2.subject) ∧
    (sync_events existing incoming).deleted =
      (existing.filter (fun p => decide (p.1 ∉ incoming.map Prod.fst))).map
        (fun p => p.2.subject) ∧
    (sync_events existing incoming).updated =
      existing.filterMap (fun p =>
        match lookup incoming p.1 with
        | some i => if fieldsDiffer p.2 i then some i.subject else none
        | none => none) := by
  have hu := sync_events_unfold existing incoming hex hin
  have hstore := lookup_sync_store existing incoming hex hin
  have hadded : (sync_events existing incoming).added =
      (incoming.filter (fun p => decide (p.1 ∉ existing.map Prod.fst))).map
        (fun p => p.2.subject) := by rw [hu]
  have hdeleted : (sync_events existing incoming).deleted =
      (existing.filter (fun p => decide (p.1 ∉ incoming.map Prod.fst))).map
        (fun p => p.2.subject) := by rw [hu]
  have hupdated : (sync_events existing incoming).updated =
      existing.filterMap (fun p =>
        match lookup incoming p.1 with
        | some i => if fieldsDiffer p.2 i then some i.subject else none
        | none => none) := by
    rw [hu]
    exact updated_eq incoming existing
  refine ⟨?_, ?_, ?_, hadded, hdeleted, hupdated⟩
  · intro k i hek hik
    constructor
    · rw [hstore k, hek, hik]
    · rw [hadded]
      refine List.mem_map_of_mem _ (List.mem_filter.mpr
        ⟨mem_of_lookup_eq_some hik, ?_⟩)
      simpa using (lookup_eq_none existing k).mp hek
  · intro k e hek hik
    constructor
    · rw [hstore k, hek, hik]
    · rw [hdeleted]
      refine List.mem_map_of_mem _ (List.mem_filter.mpr
        ⟨mem_of_lookup_eq_some hek, ?_⟩)
      simpa using (lookup_eq_none incoming k).mp hik
  · intro k e i hek hik
    refine ⟨?_, overwrite_eq e i, (fieldsDiffer_eq_false_iff e i).mp⟩
    rw [hstore k, hek, hik]

theorem check_part_keys (ex inc : Store) :
    ((check_part ex inc).map Prod.fst).Sublist (ex.map Prod.fst) := by
  induction ex with
  | nil => simp [check_part]
  | cons p rest ih =>
    cases hinc : lookup inc p.1 with
    | none =>
      have h : check_part (p :: rest) inc = check_part rest inc := by
        simp [check_part, List.filterMap_cons, hinc]
      rw [h, List.map_cons]
      exact ih.cons p.1
    | some i =>
      have h : check_part (p :: rest) inc =
          (p.1, if fieldsDiffer p.2 i then overwrite p.2 i else p.2) ::
            check_part rest inc := by
        simp [check_part, List.filterMap_cons, hinc]
      rw [h, List.map_cons, List.map_cons]
      exact ih.cons₂ p.1

theorem sync_store_keys_nodup (ex inc : Store)
    (hex : (ex.map Prod.fst).Nodup) (hin : (inc.map Prod.fst).Nodup) :
    ((sync_events ex inc).store.map Prod.fst).Nodup := by
  rw [sync_events_unfold ex inc hex hin]
  simp only [List.map_append]
  refine List.Nodup.append (hex.sublist (check_part_keys ex inc))
    (hin.sublist ((List.filter_sublist _).map Prod.fst)) ?_
  intro k hk1 hk2
  have h1 : k ∈ ex.map Prod.fst := (check_part_keys ex inc).subset hk1
  obtain ⟨p, hp, rfl⟩ := List.mem_map.mp hk2
  have h2 : p.1 ∉ ex.map Prod.fst := by
    have h3 := (List.mem_filter.mp hp).2
    simp only [decide_eq_true_eq] at h3
    exact h3
  exact h2 h1

theorem sync_store_lookup_none_iff (ex inc : Store)
    (hex : (ex.map Prod.fst).Nodup) (hin : (inc.map Prod.fst).Nodup)
    (k : String) :
    lookup (sync_events ex inc).store k = none ↔ lookup inc k = none := by
  rw [lookup_sync_store ex inc hex hin k]
  cases hek : lookup ex k <;> cases hik : lookup inc k <;> simp

theorem sync_store_mem_lookup (ex inc : Store)
    (hex : (ex.map Prod.fst).Nodup) (hin : (inc.map Prod.fst).Nodup) :
    ∀ p ∈ (sync_events ex inc).store, lookup inc p.1 = some p.2 := by
  intro p hp
  have hnd := sync_store_keys_nodup ex inc hex hin
  have hl : lookup (sync_events ex inc).store p.1 = some p.2 :=
    lookup_eq_some_of_mem hnd (by simpa using hp)
  rw [lookup_sync_store ex inc hex hin p.1] at hl
  cases hek : lookup ex p.1 with
  | none =>
    rw [hek] at hl
    cases hik : lookup inc p.1 <;> rw [hik] at hl <;> simp_all
  | some e =>
    rw [hek] at hl
    cases hik : lookup inc p.1 with
    | none => rw [hik] at hl; simp at hl
    | some i =>
      rw [hik] at hl
      simp at hl
      cases hd : fieldsDiffer e i
      · rw [hd] at hl
        simp at hl
        have hei := (fieldsDiffer_eq_false_iff e i).mp hd
        rw [← hl, hei]
      · rw [hd] at hl
        simp [overwrite_eq] at hl
        rw [hl]

theorem check_part_id (inc : Store) : ∀ st : Store,
    (∀ p ∈ st, lookup inc p.1 = some p.2) → check_part st inc = st := by
  intro st
  induction st with
  | nil => intro _; simp [check_part]
  | cons p rest ih =>
    intro h
    have hp := h p (List.mem_cons_self _ _)
    have hdiff : fieldsDiffer p.2 p.2 = false :=
      (fieldsDiffer_eq_false_iff _ _).mpr rfl
    have hrest := ih (fun q hq => h q (List.mem_cons_of_mem _ hq))
    have hstep : check_part (p :: rest) inc = (p.1, p.2) :: check_part rest inc := by
      simp [check_part, List.filterMap_cons, hp, hdiff]
    rw [hstep, hrest]

/-- Claim C2: re-running sync with the identical batch reports empty
added, updated and deleted lists and leaves the store unchanged. -/
theorem sync_events_idempotent (existing incoming : Store)
    (hex : (existing.map Prod.fst).Nodup)
    (hin : (incoming.map Prod.fst).Nodup) :
    (sync_events (sync_events existing incoming).store incoming).added = [] ∧
    (sync_events (sync_events existing incoming).store incoming).updated = [] ∧
    (sync_events (sync_events existing incoming).store incoming).deleted = [] ∧
    (sync_events (sync_events existing incoming).store incoming).store =
      (sync_events existing incoming).store := by
  have hndst : ((sync_events existing incoming).store.map Prod.fst).Nodup :=
    sync_store_keys_nodup existing incoming hex hin
  have hmem : ∀ p ∈ (sync_events existing incoming).store,
      lookup incoming p.1 = some p.2 :=
    sync_store_mem_lookup existing incoming hex hin
  have hkeys : ∀ k, k ∈ (sync_events existing incoming).store.map Prod.fst ↔
      k ∈ incoming.map Prod.fst := by
    intro k
    rw [← not_iff_not, ← lookup_eq_none, ← lookup_eq_none]
    exact sync_store_lookup_none_iff existing incoming hex hin k
  have hu := sync_events_unfold (sync_events existing incoming).store incoming
    hndst hin
  have hfilter_inc : incoming.filter
      (fun p => decide (p.1 ∉ (sync_events existing incoming).store.map Prod.fst)) =
      [] := by
    rw [List.filter_eq_nil_iff]
    intro p hp
    simp [(hkeys p.1).mpr (List.mem_map_of_mem Prod.fst hp)]
  have hfilter_st : (sync_events existing incoming).store.filter
      (fun p => decide (p.1 ∉ incoming.map Prod.fst)) = [] := by
    rw [List.filter_eq_nil_iff]
    intro p hp
    simp [(hkeys p.1).mp (List.mem_map_of_mem Prod.fst hp)]
  have hnodiff : ∀ t ∈ (sync_events existing incoming).store.filterMap
      (fun p => (lookup incoming p.1).map (fun i => (p.1, p.2, i))),
      ¬ fieldsDiffer t.2.1 t.2.2 = true := by
    intro t ht
    obtain ⟨p, hp, hmap⟩ := List.mem_filterMap.mp ht
    rw [hmem p hp] at hmap
    simp at hmap
    rw [← hmap]
    simp [(fieldsDiffer_eq_false_iff p.2 p.2).mpr rfl]
  refine ⟨?_, ?_, ?_, ?_⟩
  · rw [hu]
    simp only [SyncResult.added]
    rw [hfilter_inc]
    rfl
  · rw [hu]
    simp only [SyncResult.updated]
    rw [List.filter_eq_nil_iff.mpr hnodiff]
    rfl
  · rw [hu]
    simp only [SyncResult.deleted]
    rw [hfilter_st]
    rfl
  · rw [hu]
    simp only [SyncResult.store]
    rw [hfilter_inc, check_part_id incoming _ hmem, List.append_nil]

/-! String and character lemmas. -/

theorem strData_append (a b : String) : (a ++ b).data = a.data ++ b.data := by
  cases a; cases b; rfl

theorem strMk_data_self (s : String) : String.mk s.data = s := by
  cases s; rfl

theorem strAppend_assoc (a b c : String) : (a ++ b) ++ c = a ++ (b ++ c) := by
  cases a with
  | mk la =>
    cases b with
    | mk lb =>
      cases c with
      | mk lc =>
        show String.mk ((la ++ lb) ++ lc) = String.mk (la ++ (lb ++ lc))
        rw [List.append_assoc]

theorem strAppend_mk (pre : String) (l : List Char) :
    pre ++ String.mk l = String.mk (pre.data ++ l) := by
  cases pre; rfl

theorem listLeads_append_self (p rest : List Char) :
    listLeads p (p ++ rest) = true := by
  induction p with
  | nil => rfl
  | cons a ps ih => simp [listLeads, ih]

theorem listLeads_false_of_mismatch (i : Nat) :
    ∀ (p t l : List Char) (hp : i < p.length) (ht : i < t.length),
    p.get ⟨i, hp⟩ ≠ t.get ⟨i, ht⟩ → listLeads p (t ++ l) = false := by
  induction i with
  | zero =>
    intro p t l hp ht hne
    cases p with
    | nil => simp at hp
    | cons a ps =>
      cases t with
      | nil => simp at ht
      | cons b ts =>
        have hab : a ≠ b := hne
        simp [listLeads, hab]
  | succ i ih =>
    intro p t l hp ht hne
    cases p with
    | nil => simp at hp
    | cons a ps =>
      cases t with
      | nil => simp at ht
      | cons b ts =>
        by_cases hab : a = b
        · simp only [List.cons_append, listLeads, hab, decide_True,
            Bool.true_and]
          exact ih ps ts l (Nat.lt_of_succ_lt_succ hp)
            (Nat.lt_of_succ_lt_succ ht) hne
        · simp [listLeads, hab]

theorem strStartsWith_append_self (pre s : String) :
    strStartsWith (pre ++ s) pre = true := by
  simp only [strStartsWith, strData_append]
  exact listLeads_append_self pre.data s.data

theorem strStartsWith_append_mismatch (pre s pat : String) (i : Nat)
    (hp : i < pat.data.length) (ht : i < pre.data.length)
    (hne : pat.data.get ⟨i, hp⟩ ≠ pre.data.get ⟨i, ht⟩) :
    strStartsWith (pre ++ s) pat = false := by
  simp only [strStartsWith, strData_append]
  exact listLeads_false_of_mismatch i pat.data pre.data s.data hp ht hne

theorem lastOf_concat (l : List Char) (c : Char) :
    lastOf (l ++ [c]) = some c := by
  induction l with
  | nil => rfl
  | cons a l ih => simp [lastOf, ih]

theorem lastOf_isSome (l : List Char) (h : l ≠ []) :
    ∃ c, lastOf l = some c := by
  cases l with
  | nil => exact absurd rfl h
  | cons a rest =>
    cases hr : lastOf rest with
    | none => exact ⟨a, by simp [lastOf, hr]⟩
    | some d => exact ⟨d, by simp [lastOf, hr]⟩

theorem lastOf_append_of_ne_nil (l1 l2 : List Char) (h : l2 ≠ []) :
    lastOf (l1 ++ l2) = lastOf l2 := by
  induction l1 with
  | nil => rfl
  | cons a l ih =>
    obtain ⟨c, hc⟩ := lastOf_isSome l2 h
    rw [hc] at ih
    simp [lastOf, ih, hc]

theorem natDigitsFuel_ne_nil (fuel n : Nat) (h : 0 < fuel) :
    natDigitsFuel fuel n ≠ [] := by
  cases fuel with
  | zero => exact absurd h (by simp)
  | succ f => by_cases hn : n < 10 <;> simp [natDigitsFuel, hn]

theorem natDigits_ne_nil (n : Nat) : natDigits n ≠ [] :=
  natDigitsFuel_ne_nil (n + 1) n (Nat.succ_pos n)

theorem intDigits_ne_nil (n : Int) : intDigits n ≠ [] := by
  by_cases h : n < 0 <;> simp [intDigits, h, natDigits_ne_nil]

theorem lastOf_natDigits (n : Nat) :
    ∃ d, d < 10 ∧ lastOf (natDigits n) = some (digitChar d) := by
  by_cases hn : n < 10
  · exact ⟨n, hn, by simp [natDigits, natDigitsFuel, hn, lastOf]⟩
  · refine ⟨n % 10, Nat.mod_lt n (by norm_num), ?_⟩
    simp [natDigits, natDigitsFuel, hn, lastOf_concat]

theorem lastOf_intDigits (n : Int) :
    ∃ d, d < 10 ∧ lastOf (intDigits n) = some (digitChar d) := by
  by_cases h : n < 0
  · obtain ⟨d, hd, hl⟩ := lastOf_natDigits n.natAbs
    exact ⟨d, hd, by simp [intDigits, h, lastOf, hl]⟩
  · obtain ⟨d, hd, hl⟩ := lastOf_natDigits n.toNat
    exact ⟨d, hd, by simp [intDigits, h, lastOf, hl]⟩

theorem digitChar_ne_Z (d : Nat) (h : d < 10) : ¬ digitChar d = 'Z' := by
  interval_cases d <;> decide

theorem endsWithChar_concat_Z (s : String) :
    endsWithChar (s ++ "Z") 'Z' = true := by
  have h : (s ++ "Z").data = s.data ++ ['Z'] := strData_append s "Z"
  simp [endsWithChar, h, lastOf_concat]

theorem strDropLast_concat_Z (s : String) : strDropLast (s ++ "Z") = s := by
  have h : (s ++ "Z").data = s.data ++ ['Z'] := strData_append s "Z"
  simp [strDropLast, h, List.dropLast_concat, strMk_data_self]

theorem endsWithChar_pre_fmtDT (pre : String) (x : Int) :
    endsWithChar (pre ++ fmtDT x) 'Z' = false := by
  obtain ⟨d, hd, hl⟩ := lastOf_intDigits x
  have h : (pre ++ fmtDT x).data = pre.data ++ intDigits x :=
    strData_append pre (fmtDT x)
  simp only [endsWithChar, h,
    lastOf_append_of_ne_nil pre.data (intDigits x) (intDigits_ne_nil x), hl]
  simp [digitChar_ne_Z d hd]

theorem strDropN_append (pre s : String) :
    strDropN (pre ++ s) pre.data.length = s := by
  simp [strDropN, strData_append, List.drop_left, strMk_data_self]

/-! Prefix facts for each document line shape: a property line never
tests positive for another property name. -/

theorem nl_stamp_start (s : String) :
    strStartsWith ("DTSTAMP:" ++ s) "DTSTART:" = false :=
  strStartsWith_append_mismatch _ s _ 5 (by decide) (by decide) (by decide)

theorem nl_stamp_end (s : String) :
    strStartsWith ("DTSTAMP:" ++ s) "DTEND:" = false :=
  strStartsWith_append_mismatch _ s _ 2 (by decide) (by decide) (by decide)

theorem nl_stamp_summ (s : String) :
    strStartsWith ("DTSTAMP:" ++ s) "SUMMARY:" = false :=
  strStartsWith_append_mismatch _ s _ 0 (by decide) (by decide) (by decide)

theorem nl_stamp_uid (s : String) :
    strStartsWith ("DTSTAMP:" ++ s) "UID:" = false :=
  strStartsWith_append_mismatch _ s _ 0 (by decide) (by decide) (by decide)

theorem nl_stamp_transp (s : String) :
    strStartsWith ("DTSTAMP:" ++ s) "TRANSP:" = false :=
  strStartsWith_append_mismatch _ s _ 0 (by decide) (by decide) (by decide)

theorem nl_dsv_start (s : String) :
    strStartsWith ("DTSTART;VALUE=DATE:" ++ s) "DTSTART:" = false :=
  strStartsWith_append_mismatch _ s _ 7 (by decide) (by decide) (by decide)

theorem nl_dsv_end (s : String) :
    strStartsWith ("DTSTART;VALUE=DATE:" ++ s) "DTEND:" = false :=
  strStartsWith_append_mismatch _ s _ 2 (by decide) (by decide) (by decide)

theorem nl_dsv_summ (s : String) :
    strStartsWith ("DTSTART;VALUE=DATE:" ++ s) "SUMMARY:" = false :=
  strStartsWith_append_mismatch _ s _ 0 (by decide) (by decide) (by decide)

theorem nl_dsv_uid (s : String) :
    strStartsWith ("DTSTART;VALUE=DATE:" ++ s) "UID:" = false :=
  strStartsWith_append_mismatch _ s _ 0 (by decide) (by decide) (by decide)

theorem nl_dsv_transp (s : String) :
    strStartsWith ("DTSTART;VALUE=DATE:" ++ s) "TRANSP:" = false :=
  strStartsWith_append_mismatch _ s _ 0 (by decide) (by decide) (by decide)

theorem nl_dev_start (s : String) :
    strStartsWith ("DTEND;VALUE=DATE:" ++ s) "DTSTART:" = false :=
  strStartsWith_append_mismatch _ s _ 2 (by decide) (by decide) (by decide)

theorem nl_dev_end (s : String) :
    strStartsWith ("DTEND;VALUE=DATE:" ++ s) "DTEND:" = false :=
  strStartsWith_append_mismatch _ s _ 5 (by decide) (by decide) (by decide)

theorem nl_dev_summ (s : String) :
    strStartsWith ("DTEND;VALUE=DATE:" ++ s) "SUMMARY:" = false :=
  strStartsWith_append_mismatch _ s _ 0 (by decide) (by decide) (by decide)

theorem nl_dev_uid (s : String) :
    strStartsWith ("DTEND;VALUE=DATE:" ++ s) "UID:" = false :=
  strStartsWith_append_mismatch _ s _ 0 (by decide) (by decide) (by decide)

theorem nl_dev_transp (s : String) :
    strStartsWith ("DTEND;VALUE=DATE:" ++ s) "TRANSP:" = false :=
  strStartsWith_append_mismatch _ s _ 0 (by decide) (by decide) (by decide)

theorem nl_start_end (s : String) :
    strStartsWith ("DTSTART:" ++ s) "DTEND:" = false :=
  strStartsWith_append_mismatch _ s _ 2 (by decide) (by decide) (by decide)

theorem nl_start_summ (s : String) :
    strStartsWith ("DTSTART:" ++ s) "SUMMARY:" = false :=
  strStartsWith_append_mismatch _ s _ 0 (by decide) (by decide) (by decide)

theorem nl_start_uid (s : String) :
    strStartsWith ("DTSTART:" ++ s) "UID:" = false :=
  strStartsWith_append_mismatch _ s _ 0 (by decide) (by decide) (by decide)

theorem nl_start_transp (s : String) :
    strStartsWith ("DTSTART:" ++ s) "TRANSP:" = false :=
  strStartsWith_append_mismatch _ s _ 0 (by decide) (by decide) (by decide)

theorem nl_end_start (s : String) :
    strStartsWith ("DTEND:" ++ s) "DTSTART:" = false :=
  strStartsWith_append_mismatch _ s _ 2 (by decide) (by decide) (by decide)

theorem nl_end_summ (s : String) :
    strStartsWith ("DTEND:" ++ s) "SUMMARY:" = false :=
  strStartsWith_append_mismatch _ s _ 0 (by decide) (by decide) (by decide)

theorem nl_end_uid (s : String) :
    strStartsWith ("DTEND:" ++ s) "UID:" = false :=
  strStartsWith_append_mismatch _ s _ 0 (by decide) (by decide) (by decide)

theorem nl_end_transp (s : String) :
    strStartsWith ("DTEND:" ++ s) "TRANSP:" = false :=
  strStartsWith_append_mismatch _ s _ 0 (by decide) (by decide) (by decide)

theorem nl_transp_start (s : String) :
    strStartsWith ("TRANSP:" ++ s) "DTSTART:" = false :=
  strStartsWith_append_mismatch _ s _ 0 (by decide) (by decide) (by decide)

theorem nl_transp_end (s : String) :
    strStartsWith ("TRANSP:" ++ s) "DTEND:" = false :=
  strStartsWith_append_mismatch _ s _ 0 (by decide) (by decide) (by decide)

theorem nl_transp_summ (s : String) :
    strStartsWith ("TRANSP:" ++ s) "SUMMARY:" = false :=
  strStartsWith_append_mismatch _ s _ 0 (by decide) (by decide) (by decide)

theorem nl_transp_uid (s : String) :
    strStartsWith ("TRANSP:" ++ s) "UID:" = false :=
  strStartsWith_append_mismatch _ s _ 0 (by decide) (by decide) (by decide)

theorem nl_summ_start (s : String) :
    strStartsWith ("SUMMARY:" ++ s) "DTSTART:" = false :=
  strStartsWith_append_mismatch _ s _ 0 (by decide) (by decide) (by decide)

theorem nl_summ_end (s : String) :
    strStartsWith ("SUMMARY:" ++ s) "DTEND:" = false :=
  strStartsWith_append_mismatch _ s _ 0 (by decide) (by decide) (by decide)

theorem nl_summ_uid (s : String) :
    strStartsWith ("SUMMARY:" ++ s) "UID:" = false :=
  strStartsWith_append_mismatch _ s _ 0 (by decide) (by decide) (by decide)

theorem nl_summ_transp (s : String) :
    strStartsWith ("SUMMARY:" ++ s) "TRANSP:" = false :=
  strStartsWith_append_mismatch _ s _ 0 (by decide) (by decide) (by decide)

theorem nl_loc_start (s : String) :
    strStartsWith ("LOCATION:" ++ s) "DTSTART:" = false :=
  strStartsWith_append_mismatch _ s _ 0 (by decide) (by decide) (by decide)

theorem nl_loc_end (s : String) :
    strStartsWith ("LOCATION:" ++ s) "DTEND:" = false :=
  strStartsWith_append_mismatch _ s _ 0 (by decide) (by decide) (by decide)

theorem nl_loc_summ (s : String) :
    strStartsWith ("LOCATION:" ++ s) "SUMMARY:" = false :=
  strStartsWith_append_mismatch _ s _ 0 (by decide) (by decide) (by decide)

theorem nl_loc_uid (s : String) :
    strStartsWith ("LOCATION:" ++ s) "UID:" = false :=
  strStartsWith_append_mismatch _ s _ 0 (by decide) (by decide) (by decide)

theorem nl_loc_transp (s : String) :
    strStartsWith ("LOCATION:" ++ s) "TRANSP:" = false :=
  strStartsWith_append_mismatch _ s _ 0 (by decide) (by decide) (by decide)

theorem nl_uid_start (s : String) :
    strStartsWith ("UID:" ++ s) "DTSTART:" = false :=
  strStartsWith_append_mismatch _ s _ 0 (by decide) (by decide) (by decide)

theorem nl_uid_end (s : String) :
    strStartsWith ("UID:" ++ s) "DTEND:" = false :=
  strStartsWith_append_mismatch _ s _ 0 (by decide) (by decide) (by decide)

theorem nl_uid_summ (s : String) :
    strStartsWith ("UID:" ++ s) "SUMMARY:" = false :=
  strStartsWith_append_mismatch _ s _ 0 (by decide) (by decide) (by decide)

theorem nl_uid_transp (s : String) :
    strStartsWith ("UID:" ++ s) "TRANSP:" = false :=
  strStartsWith_append_mismatch _ s _ 0 (by decide) (by decide) (by decide)

/-! Behaviour of the Z stripping pass on each line shape. -/

theorem strip_noop (line : String)
    (h1 : strStartsWith line "DTSTART:" = false)
    (h2 : strStartsWith line "DTEND:" = false) :
    strip_tz_line line = line := by
  simp [strip_tz_line, h1, h2]

theorem strip_dtstart_timed (x : Int) :
    strip_tz_line ("DTSTART:" ++ fmtDT x ++ "Z") = "DTSTART:" ++ fmtDT x := by
  have h1 : strStartsWith ("DTSTART:" ++ fmtDT x ++ "Z") "DTSTART:" = true := by
    rw [strAppend_assoc]
    exact strStartsWith_append_self _ _
  have h2 := endsWithChar_concat_Z ("DTSTART:" ++ fmtDT x)
  simp [strip_tz_line, h1, h2, strDropLast_concat_Z]

theorem strip_dtend_timed (x : Int) :
    strip_tz_line ("DTEND:" ++ fmtDT x ++ "Z") = "DTEND:" ++ fmtDT x := by
  have h1 : strStartsWith ("DTEND:" ++ fmtDT x ++ "Z") "DTEND:" = true := by
    rw [strAppend_assoc]
    exact strStartsWith_append_self _ _
  have h2 := endsWithChar_concat_Z ("DTEND:" ++ fmtDT x)
  simp [strip_tz_line, h1, h2, strDropLast_concat_Z]

theorem strip_dtstamp (x : Int) :
    strip_tz_line ("DTSTAMP:" ++ fmtDT x ++ "Z") =
      "DTSTAMP:" ++ (fmtDT x ++ "Z") := by
  rw [strAppend_assoc]
  exact strip_noop _ (nl_stamp_start _) (nl_stamp_end _)

theorem map_strip_eventLines_timed (e : IcsEvent) (hd : e.isAllDay = false)
    (ht : e.transp = none) :
    (renderEventLines e).map strip_tz_line =
      ["BEGIN:VEVENT",
       "DTSTART:" ++ fmtDT e.begin_dt,
       "DTEND:" ++ fmtDT e.end_dt,
       "DTSTAMP:" ++ (fmtDT e.created ++ "Z"),
       "SUMMARY:" ++ e.name,
       "LOCATION:" ++ e.location,
       "UID:" ++ e.uid,
       "END:VEVENT"] := by
  have hb : strip_tz_line "BEGIN:VEVENT" = "BEGIN:VEVENT" := by decide
  have hev : strip_tz_line "END:VEVENT" = "END:VEVENT" := by decide
  have hsm : strip_tz_line ("SUMMARY:" ++ e.name) = "SUMMARY:" ++ e.name :=
    strip_noop _ (nl_summ_start _) (nl_summ_end _)
  have hlc : strip_tz_line ("LOCATION:" ++ e.location) =
      "LOCATION:" ++ e.location :=
    strip_noop _ (nl_loc_start _) (nl_loc_end _)
  have hui : strip_tz_line ("UID:" ++ e.uid) = "UID:" ++ e.uid :=
    strip_noop _ (nl_uid_start _) (nl_uid_end _)
  simp [renderEventLines, hd, ht, strip_dtstart_timed, strip_dtend_timed,
    strip_dtstamp, hb, hev, hsm, hlc, hui]

theorem map_strip_eventLines_allday (e : IcsEvent) (hd : e.isAllDay = true)
    (t : String) (ht : e.transp = some t) :
    (renderEventLines e).map strip_tz_line =
      ["BEGIN:VEVENT",
       "DTSTART;VALUE=DATE:" ++ fmtDate e.begin_dt,
       "DTEND;VALUE=DATE:" ++ fmtDate e.end_dt,
       "DTSTAMP:" ++ (fmtDT e.created ++ "Z"),
       "TRANSP:" ++ t,
       "SUMMARY:" ++ e.name,
       "LOCATION:" ++ e.location,
       "UID:" ++ e.uid,
       "END:VEVENT"] := by
  have hb : strip_tz_line "BEGIN:VEVENT" = "BEGIN:VEVENT" := by decide
  have hev : strip_tz_line "END:VEVENT" = "END:VEVENT" := by decide
  have hds : strip_tz_line ("DTSTART;VALUE=DATE:" ++ fmtDate e.begin_dt) =
      "DTSTART;VALUE=DATE:" ++ fmtDate e.begin_dt :=
    strip_noop _ (nl_dsv_start _) (nl_dsv_end _)
  have hde : strip_tz_line ("DTEND;VALUE=DATE:" ++ fmtDate e.end_dt) =
      "DTEND;VALUE=DATE:" ++ fmtDate e.end_dt :=
    strip_noop _ (nl_dev_start _) (nl_dev_end _)
  have htr : strip_tz_line ("TRANSP:" ++ t) = "TRANSP:" ++ t :=
    strip_noop _ (nl_transp_start _) (nl_transp_end _)
  have hsm : strip_tz_line ("SUMMARY:" ++ e.name) = "SUMMARY:" ++ e.name :=
    strip_noop _ (nl_summ_start _) (nl_summ_end _)
  have hlc : strip_tz_line ("LOCATION:" ++ e.location) =
      "LOCATION:" ++ e.location :=
    strip_noop _ (nl_loc_start _) (nl_loc_end _)
  have hui : strip_tz_line ("UID:" ++ e.uid) = "UID:" ++ e.uid :=
    strip_noop _ (nl_uid_start _) (nl_uid_end _)
  simp [renderEventLines, hd, ht, strip_dtstamp, hb, hev, hds, hde, htr,
    hsm, hlc, hui]

theorem buildIcsEventFree_pos (now : Int) (k : String) (ev : EventRecord)
    (h : 23 * 3600 ≤ ev.end_datetime - ev.start_datetime) :
    buildIcsEventFree now k ev =
      { name := ev.subject, begin_dt := ev.start_datetime,
        end_dt := ev.end_datetime, isAllDay := true,
        transp := some "TRANSPARENT", uid := k, location := ev.location,
        created := now } := by
  simp [buildIcsEventFree, h]
  omega

theorem buildIcsEventFree_neg (now : Int) (k : String) (ev : EventRecord)
    (h : ¬ 23 * 3600 ≤ ev.end_datetime - ev.start_datetime) :
    buildIcsEventFree now k ev =
      { name := ev.subject, begin_dt := ev.start_datetime,
        end_dt := ev.end_datetime, isAllDay := false,
        transp := none, uid := k, location := ev.location,
        created := now } := by
  simp [buildIcsEventFree, h]
  omega

theorem buildIcsEventBusy_pos (now : Int) (k : String) (ev : EventRecord)
    (h : 23 * 3600 ≤ ev.end_datetime - ev.start_datetime) :
    buildIcsEventBusy now k ev =
      { name := ev.subject, begin_dt := ev.start_datetime,
        end_dt := ev.end_datetime, isAllDay := true,
        transp := some "OPAQUE", uid := k, location := ev.location,
        created := now } := by
  simp [buildIcsEventBusy, h]
  omega

theorem buildIcsEventBusy_neg (now : Int) (k : String) (ev : EventRecord)
    (h : ¬ 23 * 3600 ≤ ev.end_datetime - ev.start_datetime) :
    buildIcsEventBusy now k ev =
      { name := ev.subject, begin_dt := ev.start_datetime,
        end_dt := ev.end_datetime, isAllDay := false,
        transp := none, uid := k, location := ev.location,
        created := now } := by
  simp [buildIcsEventBusy, h]
  omega

/-! Extraction of SUMMARY and UID values from rendered documents. -/

theorem extractSummaries_append (a b : List String) :
    extractSummaries (a ++ b) = extractSummaries a ++ extractSummaries b := by
  simp [extractSummaries]

theorem extractUIDs_append (a b : List String) :
    extractUIDs (a ++ b) = extractUIDs a ++ extractUIDs b := by
  simp [extractUIDs]

theorem strDropN_summary (s : String) :
    strDropN ("SUMMARY:" ++ s) 8 = s := by
  have hlen : ("SUMMARY:" : String).data.length = 8 := rfl
  have h := strDropN_append "SUMMARY:" s
  rw [hlen] at h
  exact h

theorem strDropN_uid (s : String) : strDropN ("UID:" ++ s) 4 = s := by
  have hlen : ("UID:" : String).data.length = 4 := rfl
  have h := strDropN_append "UID:" s
  rw [hlen] at h
  exact h

theorem extract_event_free_summ (now : Int) (k : String) (ev : EventRecord) :
    extractSummaries ((renderEventLines (buildIcsEventFree now k ev)).map
      strip_tz_line) = [ev.subject] := by
  have hb : strStartsWith "BEGIN:VEVENT" "SUMMARY:" = false := by decide
  have he : strStartsWith "END:VEVENT" "SUMMARY:" = false := by decide
  have hpos : strStartsWith ("SUMMARY:" ++ ev.subject) "SUMMARY:" = true :=
    strStartsWith_append_self _ _
  by_cases hth : 23 * 3600 ≤ ev.end_datetime - ev.start_datetime
  · rw [buildIcsEventFree_pos now k ev hth,
      map_strip_eventLines_allday _ rfl "TRANSPARENT" rfl]
    have htr : strStartsWith "TRANSP:TRANSPARENT" "SUMMARY:" = false := by
      decide
    simp [extractSummaries, hb, he, hpos, htr, nl_dsv_summ, nl_dev_summ,
      nl_stamp_summ, nl_transp_summ, nl_loc_summ, nl_uid_summ,
      strDropN_summary]
  · rw [buildIcsEventFree_neg now k ev hth,
      map_strip_eventLines_timed _ rfl rfl]
    simp [extractSummaries, hb, he, hpos, nl_start_summ, nl_end_summ,
      nl_stamp_summ, nl_loc_summ, nl_uid_summ, strDropN_summary]

theorem extract_event_free_uid (now : Int) (k : String) (ev : EventRecord) :
    extractUIDs ((renderEventLines (buildIcsEventFree now k ev)).map
      strip_tz_line) = [k] := by
  have hb : strStartsWith "BEGIN:VEVENT" "UID:" = false := by decide
  have he : strStartsWith "END:VEVENT" "UID:" = false := by decide
  have hpos : strStartsWith ("UID:" ++ k) "UID:" = true :=
    strStartsWith_append_self _ _
  by_cases hth : 23 * 3600 ≤ ev.end_datetime - ev.start_datetime
  · rw [buildIcsEventFree_pos now k ev hth,
      map_strip_eventLines_allday _ rfl "TRANSPARENT" rfl]
    have htr : strStartsWith "TRANSP:TRANSPARENT" "UID:" = false := by decide
    simp [extractUIDs, hb, he, hpos, htr, nl_dsv_uid, nl_dev_uid,
      nl_stamp_uid, nl_transp_uid, nl_loc_uid, nl_summ_uid, strDropN_uid]
  · rw [buildIcsEventFree_neg now k ev hth,
      map_strip_eventLines_timed _ rfl rfl]
    simp [extractUIDs, hb, he, hpos, nl_start_uid, nl_end_uid, nl_stamp_uid,
      nl_loc_uid, nl_summ_uid, strDropN_uid]

theorem extract_blocks_free_summ (now : Int) : ∀ events : Store,
    extractSummaries ((renderEventsLines (events.map (fun p =>
        buildIcsEventFree now p.1 p.2))).map strip_tz_line) =
      events.map (fun p => p.2.subject) := by
  intro events
  induction events with
  | nil => simp [renderEventsLines, extractSummaries]
  | cons p rest ih =>
    simp only [List.map_cons, renderEventsLines, List.map_append,
      extractSummaries_append, ih, extract_event_free_summ]
    rfl

theorem extract_blocks_free_uid (now : Int) : ∀ events : Store,
    extractUIDs ((renderEventsLines (events.map (fun p =>
        buildIcsEventFree now p.1 p.2))).map strip_tz_line) =
      events.map Prod.fst := by
  intro events
  induction events with
  | nil => simp [renderEventsLines, extractUIDs]
  | cons p rest ih =>
    simp only [List.map_cons, renderEventsLines, List.map_append,
      extractUIDs_append, ih, extract_event_free_uid]
    rfl

theorem extract_free_summaries (now : Int) (events : Store) :
    extractSummaries (generate_ics_free_lines now events) =
      events.map (fun p => p.2.subject) := by
  have hhead : extractSummaries (["BEGIN:VCALENDAR", "VERSION:2.0",
      "PRODID:ics.py"].map strip_tz_line) = [] := by decide
  have hfoot : extractSummaries (["END:VCALENDAR"].map strip_tz_line) = [] := by
    decide
  simp only [generate_ics_free_lines, renderCalendarLines, List.map_append,
    extractSummaries_append, hhead, hfoot, extract_blocks_free_summ]
  simp

theorem extract_free_uids (now : Int) (events : Store) :
    extractUIDs (generate_ics_free_lines now events) =
      events.map Prod.fst := by
  have hhead : extractUIDs (["BEGIN:VCALENDAR", "VERSION:2.0",
      "PRODID:ics.py"].map strip_tz_line) = [] := by decide
  have hfoot : extractUIDs (["END:VCALENDAR"].map strip_tz_line) = [] := by
    decide
  simp only [generate_ics_free_lines, renderCalendarLines, List.map_append,
    extractUIDs_append, hhead, hfoot, extract_blocks_free_uid]
  simp

/-! Per-line properties of the generated documents. -/

theorem mem_renderEventsLines {line : String} : ∀ evs : List IcsEvent,
    line ∈ renderEventsLines evs → ∃ e, e ∈ evs ∧ line ∈ renderEventLines e := by
  intro evs
  induction evs with
  | nil => intro h; simp [renderEventsLines] at h
  | cons e rest ih =>
    intro h
    rcases List.mem_append.mp (by simpa [renderEventsLines] using h) with h | h
    · exact ⟨e, List.mem_cons_self _ _, h⟩
    · obtain ⟨e2, he2, hl⟩ := ih h
      exact ⟨e2, List.mem_cons_of_mem _ he2, hl⟩

theorem mem_generate_lines {line : String} (now : Int) (events : Store)
    (build : Int → String → EventRecord → IcsEvent)
    (h : line ∈ (renderCalendarLines (events.map (fun p =>
        build now p.1 p.2))).map strip_tz_line) :
    line ∈ ["BEGIN:VCALENDAR", "VERSION:2.0", "PRODID:ics.py",
        "END:VCALENDAR"].map strip_tz_line ∨
    ∃ k ev, (k, ev) ∈ events ∧
      line ∈ (renderEventLines (build now k ev)).map strip_tz_line := by
  obtain ⟨l0, hl0, rfl⟩ := List.mem_map.mp h
  simp only [renderCalendarLines, List.append_assoc, List.mem_append] at hl0
  rcases hl0 with h0 | h0 | h0
  · left
    apply List.mem_map_of_mem
    simp only [List.mem_cons, List.mem_singleton] at h0 ⊢
    tauto
  · obtain ⟨e, he, hl⟩ := mem_renderEventsLines _ h0
    obtain ⟨p, hp, rfl⟩ := List.mem_map.mp he
    exact Or.inr ⟨p.1, p.2, by simpa using hp, List.mem_map_of_mem _ hl⟩
  · left
    apply List.mem_map_of_mem
    simp only [List.mem_cons, List.mem_singleton] at h0 ⊢
    tauto

theorem zone_free_line_vac (line : String)
    (h1 : strStartsWith line "DTSTART:" = false)
    (h2 : strStartsWith line "DTEND:" = false) :
    (strStartsWith line "DTSTART:" || strStartsWith line "DTEND:") = true →
      endsWithChar line 'Z' = false := by
  rw [h1, h2]
  intro h
  simp at h

theorem zone_free_event_allday (e : IcsEvent) (hd : e.isAllDay = true)
    (t : String) (ht : e.transp = some t) :
    ∀ line ∈ (renderEventLines e).map strip_tz_line,
      (strStartsWith line "DTSTART:" || strStartsWith line "DTEND:") = true →
      endsWithChar line 'Z' = false := by
  rw [map_strip_eventLines_allday e hd t ht]
  intro line hline
  simp only [List.mem_cons, List.not_mem_nil, or_false] at hline
  rcases hline with rfl | rfl | rfl | rfl | rfl | rfl | rfl | rfl | rfl
  · decide
  · exact zone_free_line_vac _ (nl_dsv_start _) (nl_dsv_end _)
  · exact zone_free_line_vac _ (nl_dev_start _) (nl_dev_end _)
  · exact zone_free_line_vac _ (nl_stamp_start _) (nl_stamp_end _)
  · exact zone_free_line_vac _ (nl_transp_start _) (nl_transp_end _)
  · exact zone_free_line_vac _ (nl_summ_start _) (nl_summ_end _)
  · exact zone_free_line_vac _ (nl_loc_start _) (nl_loc_end _)
  · exact zone_free_line_vac _ (nl_uid_start _) (nl_uid_end _)
  · decide

theorem zone_free_event_timed (e : IcsEvent) (hd : e.isAllDay = false)
    (ht : e.transp = none) :
    ∀ line ∈ (renderEventLines e).map strip_tz_line,
      (strStartsWith line "DTSTART:" || strStartsWith line "DTEND:") = true →
      endsWithChar line 'Z' = false := by
  rw [map_strip_eventLines_timed e hd ht]
  intro line hline
  simp only [List.mem_cons, List.not_mem_nil, or_false] at hline
  rcases hline with rfl | rfl | rfl | rfl | rfl | rfl | rfl | rfl
  · decide
  · intro _; exact endsWithChar_pre_fmtDT _ _
  · intro _; exact endsWithChar_pre_fmtDT _ _
  · exact zone_free_line_vac _ (nl_stamp_start _) (nl_stamp_end _)
  · exact zone_free_line_vac _ (nl_summ_start _) (nl_summ_end _)
  · exact zone_free_line_vac _ (nl_loc_start _) (nl_loc_end _)
  · exact zone_free_line_vac _ (nl_uid_start _) (nl_uid_end _)
  · decide

theorem mask_noop (l : String) (h : strStartsWith l "TRANSP:" = false) :
    maskTransp l = l := by
  simp [maskTransp, h]

theorem mask_event_eq (now : Int) (k : String) (ev : EventRecord) :
    ((renderEventLines (buildIcsEventFree now k ev)).map strip_tz_line).map
      maskTransp =
    ((renderEventLines (buildIcsEventBusy now k ev)).map strip_tz_line).map
      maskTransp := by
  by_cases hth : 23 * 3600 ≤ ev.end_datetime - ev.start_datetime
  · rw [buildIcsEventFree_pos now k ev hth, buildIcsEventBusy_pos now k ev hth,
      map_strip_eventLines_allday _ rfl "TRANSPARENT" rfl,
      map_strip_eventLines_allday _ rfl "OPAQUE" rfl]
    have hB : maskTransp "BEGIN:VEVENT" = "BEGIN:VEVENT" := by decide
    have hE : maskTransp "END:VEVENT" = "END:VEVENT" := by decide
    have hT1 : maskTransp "TRANSP:TRANSPARENT" = "TRANSP:MASKED" := by decide
    have hT2 : maskTransp "TRANSP:OPAQUE" = "TRANSP:MASKED" := by decide
    have hdsv := fun s => mask_noop ("DTSTART;VALUE=DATE:" ++ s) (nl_dsv_transp s)
    have hdev := fun s => mask_noop ("DTEND;VALUE=DATE:" ++ s) (nl_dev_transp s)
    have hstamp := fun s => mask_noop ("DTSTAMP:" ++ s) (nl_stamp_transp s)
    have hsumm := fun s => mask_noop ("SUMMARY:" ++ s) (nl_summ_transp s)
    have hloc := fun s => mask_noop ("LOCATION:" ++ s) (nl_loc_transp s)
    have huid := fun s => mask_noop ("UID:" ++ s) (nl_uid_transp s)
    simp [hB, hE, hT1, hT2, hdsv, hdev, hstamp, hsumm, hloc, huid]
  · rw [buildIcsEventFree_neg now k ev hth, buildIcsEventBusy_neg now k ev hth]

theorem mask_blocks_eq (now : Int) : ∀ events : Store,
    ((renderEventsLines (events.map (fun p =>
        buildIcsEventFree now p.1 p.2))).map strip_tz_line).map maskTransp =
    ((renderEventsLines (events.map (fun p =>
        buildIcsEventBusy now p.1 p.2))).map strip_tz_line).map maskTransp := by
  intro events
  induction events with
  | nil => rfl
  | cons p rest ih =>
    simp only [List.map_cons, renderEventsLines, List.map_append]
    rw [mask_event_eq now p.1 p.2, ih]

theorem transp_event_free (now : Int) (k : String) (ev : EventRecord) :
    ∀ line ∈ (renderEventLines (buildIcsEventFree now k ev)).map strip_tz_line,
      strStartsWith line "TRANSP:" = true → line = "TRANSP:TRANSPARENT" := by
  by_cases hth : 23 * 3600 ≤ ev.end_datetime - ev.start_datetime
  · rw [buildIcsEventFree_pos now k ev hth,
      map_strip_eventLines_allday _ rfl "TRANSPARENT" rfl]
    intro line hline
    simp only [List.mem_cons, List.not_mem_nil, or_false] at hline
    rcases hline with rfl | rfl | rfl | rfl | rfl | rfl | rfl | rfl | rfl
    · decide
    · rw [nl_dsv_transp]; intro h; exact absurd h (by simp)
    · rw [nl_dev_transp]; intro h; exact absurd h (by simp)
    · rw [nl_stamp_transp]; intro h; exact absurd h (by simp)
    · intro _; decide
    · rw [nl_summ_transp]; intro h; exact absurd h (by simp)
    · rw [nl_loc_transp]; intro h; exact absurd h (by simp)
    · rw [nl_uid_transp]; intro h; exact absurd h (by simp)
    · decide
  · rw [buildIcsEventFree_neg now k ev hth,
      map_strip_eventLines_timed _ rfl rfl]
    intro line hline
    simp only [List.mem_cons, List.not_mem_nil, or_false] at hline
    rcases hline with rfl | rfl | rfl | rfl | rfl | rfl | rfl | rfl
    · decide
    · rw [nl_start_transp]; intro h; exact absurd h (by simp)
    · rw [nl_end_transp]; intro h; exact absurd h (by simp)
    · rw [nl_stamp_transp]; intro h; exact absurd h (by simp)
    · rw [nl_summ_transp]; intro h; exact absurd h (by simp)
    · rw [nl_loc_transp]; intro h; exact absurd h (by simp)
    · rw [nl_uid_transp]; intro h; exact absurd h (by simp)
    · decide

theorem transp_event_busy (now : Int) (k : String) (ev : EventRecord) :
    ∀ line ∈ (renderEventLines (buildIcsEventBusy now k ev)).map strip_tz_line,
      strStartsWith line "TRANSP:" = true → line = "TRANSP:OPAQUE" := by
  by_cases hth : 23 * 3600 ≤ ev.end_datetime - ev.start_datetime
  · rw [buildIcsEventBusy_pos now k ev hth,
      map_strip_eventLines_allday _ rfl "OPAQUE" rfl]
    intro line hline
    simp only [List.mem_cons, List.not_mem_nil, or_false] at hline
    rcases hline with rfl | rfl | rfl | rfl | rfl | rfl | rfl | rfl | rfl
    · decide
    · rw [nl_dsv_transp]; intro h; exact absurd h (by simp)
    · rw [nl_dev_transp]; intro h; exact absurd h (by simp)
    · rw [nl_stamp_transp]; intro h; exact absurd h (by simp)
    · intro _; decide
    · rw [nl_summ_transp]; intro h; exact absurd h (by simp)
    · rw [nl_loc_transp]; intro h; exact absurd h (by simp)
    · rw [nl_uid_transp]; intro h; exact absurd h (by simp)
    · decide
  · rw [buildIcsEventBusy_neg now k ev hth,
      map_strip_eventLines_timed _ rfl rfl]
    intro line hline
    simp only [List.mem_cons, List.not_mem_nil, or_false] at hline
    rcases hline with rfl | rfl | rfl | rfl | rfl | rfl | rfl | rfl
    · decide
    · rw [nl_start_transp]; intro h; exact absurd h (by simp)
    · rw [nl_end_transp]; intro h; exact absurd h (by simp)
    · rw [nl_stamp_transp]; intro h; exact absurd h (by simp)
    · rw [nl_summ_transp]; intro h; exact absurd h (by simp)
    · rw [nl_loc_transp]; intro h; exact absurd h (by simp)
    · rw [nl_uid_transp]; intro h; exact absurd h (by simp)
    · decide

theorem header_lines_zone_free :
    ∀ line ∈ ["BEGIN:VCALENDAR", "VERSION:2.0", "PRODID:ics.py",
        "END:VCALENDAR"].map strip_tz_line,
      (strStartsWith line "DTSTART:" || strStartsWith line "DTEND:") = true →
      endsWithChar line 'Z' = false := by decide

theorem header_lines_no_transp :
    ∀ line ∈ ["BEGIN:VCALENDAR", "VERSION:2.0", "PRODID:ics.py",
        "END:VCALENDAR"].map strip_tz_line,
      strStartsWith line "TRANSP:" = false := by decide

/-- Claim C4: in the threshold mode used by this program an event is
classified long-form iff its duration is at least the 23-hour threshold,
with no midnight requirement; a long-form event is marked as a whole-day
date-only entity with the transparency of the policy (TRANSPARENT for
the free generator, OPAQUE for the busy one); any other event stays a
timed event with no transparency. -/
theorem threshold_classification (now : Int) (k : String) (ev : EventRecord) :
    ((buildIcsEventFree now k ev).isAllDay = true ↔
      23 * 3600 ≤ ev.end_datetime - ev.start_datetime) ∧
    ((buildIcsEventBusy now k ev).isAllDay = true ↔
      23 * 3600 ≤ ev.end_datetime - ev.start_datetime) ∧
    (23 * 3600 ≤ ev.end_datetime - ev.start_datetime →
      (buildIcsEventFree now k ev).transp = some "TRANSPARENT" ∧
      (buildIcsEventBusy now k ev).transp = some "OPAQUE" ∧
      (renderEventLines (buildIcsEventFree now k ev)).map strip_tz_line =
        ["BEGIN:VEVENT",
         "DTSTART;VALUE=DATE:" ++ fmtDate ev.start_datetime,
         "DTEND;VALUE=DATE:" ++ fmtDate ev.end_datetime,
         "DTSTAMP:" ++ (fmtDT now ++ "Z"),
         "TRANSP:" ++ "TRANSPARENT",
         "SUMMARY:" ++ ev.subject,
         "LOCATION:" ++ ev.location,
         "UID:" ++ k,
         "END:VEVENT"]) ∧
    (¬ 23 * 3600 ≤ ev.end_datetime - ev.start_datetime →
      (buildIcsEventFree now k ev).isAllDay = false ∧
      (buildIcsEventFree now k ev).transp = none ∧
      (buildIcsEventBusy now k ev).isAllDay = false ∧
      (buildIcsEventBusy now k ev).transp = none) := by
  refine ⟨?_, ?_, ?_, ?_⟩
  · constructor
    · intro h
      by_contra hth
      rw [buildIcsEventFree_neg now k ev hth] at h
      simp at h
    · intro hth
      rw [buildIcsEventFree_pos now k ev hth]
  · constructor
    · intro h
      by_contra hth
      rw [buildIcsEventBusy_neg now k ev hth] at h
      simp at h
    · intro hth
      rw [buildIcsEventBusy_pos now k ev hth]
  · intro hth
    refine ⟨?_, ?_, ?_⟩
    · rw [buildIcsEventFree_pos now k ev hth]
    · rw [buildIcsEventBusy_pos now k ev hth]
    · rw [buildIcsEventFree_pos now k ev hth,
        map_strip_eventLines_allday _ rfl "TRANSPARENT" rfl]
  · intro hth
    rw [buildIcsEventFree_neg now k ev hth, buildIcsEventBusy_neg now k ev hth]
    exact ⟨rfl, rfl, rfl, rfl⟩

/-- Claim C4 witness: a 23.5-hour event starting away from midnight is
classified long-form and made transparent by the free generator. -/
theorem threshold_classification_witness :
    ((30600 : Int) % 86400 ≠ 0 ∧ evLong.start_datetime = 30600 ∧
      23 * 3600 ≤ evLong.end_datetime - evLong.start_datetime) ∧
    (buildIcsEventFree 0 "Offsite|d|t" evLong).isAllDay = true ∧
    (buildIcsEventFree 0 "Offsite|d|t" evLong).transp = some "TRANSPARENT" :=
  ⟨⟨by decide, by decide, by decide⟩, by
    have h := threshold_classification 0 "Offsite|d|t" evLong
    exact ⟨h.1.mpr (by decide), (h.2.2.1 (by decide)).1⟩⟩

/-- Claim C5 counterexample: for one persisted timed event the returned
NAIVE-mode document still has a line ending with the UTC marker Z: the
pass skips the DTSTAMP creation-stamp line, so the output is not
zone-free as a whole. -/
theorem naive_output_retains_Z_counterexample :
    ("DTSTAMP:0Z" ∈ generate_ics_free_lines 0 [("k", evA)]) ∧
    endsWithChar "DTSTAMP:0Z" 'Z' = true ∧
    (generate_ics_free_lines 0 [("k", evA)]).any
      (fun l => endsWithChar l 'Z') = true := by decide

/-- Claim C5 (amended): in NAIVE mode the cleanup pass removes the
trailing UTC marker from every DTSTART: and DTEND: property line of the
rendered document, so no DTSTART: or DTEND: line of the returned text
ends with Z; lines of other properties (such as the DTSTAMP creation
stamp) are outside the pass and may keep the Z the primitive appended. -/
theorem naive_strip_dtstart_dtend (now : Int) (events : Store) :
    (∀ line ∈ generate_ics_free_lines now events,
      (strStartsWith line "DTSTART:" || strStartsWith line "DTEND:") = true →
      endsWithChar line 'Z' = false) ∧
    (∀ line ∈ generate_ics_busy_lines now events,
      (strStartsWith line "DTSTART:" || strStartsWith line "DTEND:") = true →
      endsWithChar line 'Z' = false) := by
  constructor
  · intro line hline
    rcases mem_generate_lines now events buildIcsEventFree hline with
      h | ⟨k, ev, hkv, h⟩
    · exact header_lines_zone_free line h
    · by_cases hth : 23 * 3600 ≤ ev.end_datetime - ev.start_datetime
      · exact zone_free_event_allday _
          (by rw [buildIcsEventFree_pos now k ev hth]) "TRANSPARENT"
          (by rw [buildIcsEventFree_pos now k ev hth]) line h
      · exact zone_free_event_timed _
          (by rw [buildIcsEventFree_neg now k ev hth])
          (by rw [buildIcsEventFree_neg now k ev hth]) line h
  · intro line hline
    rcases mem_generate_lines now events buildIcsEventBusy hline with
      h | ⟨k, ev, hkv, h⟩
    · exact header_lines_zone_free line h
    · by_cases hth : 23 * 3600 ≤ ev.end_datetime - ev.start_datetime
      · exact zone_free_event_allday _
          (by rw [buildIcsEventBusy_pos now k ev hth]) "OPAQUE"
          (by rw [buildIcsEventBusy_pos now k ev hth]) line h
      · exact zone_free_event_timed _
          (by rw [buildIcsEventBusy_neg now k ev hth])
          (by rw [buildIcsEventBusy_neg now k ev hth]) line h

/-- Claim C5 witness: the DTSTART line of a concrete generated document
starts with DTSTART: and, after the pass, no longer ends with Z. -/
theorem naive_strip_dtstart_dtend_witness :
    ("DTSTART:32400" ∈ generate_ics_free_lines 0 [("k", evA)] ∧
      (strStartsWith "DTSTART:32400" "DTSTART:" ||
       strStartsWith "DTSTART:32400" "DTEND:") = true) ∧
    endsWithChar "DTSTART:32400" 'Z' = false :=
  ⟨⟨by decide, by decide⟩,
    (naive_strip_dtstart_dtend 0 [("k", evA)]).1 "DTSTART:32400" (by decide)
      (by decide)⟩

/-- Claim C6: generating the document from a persisted set and collecting
the SUMMARY and UID values of its event blocks reproduces exactly the
persisted subjects and natural keys, each event appearing exactly once
and nothing else appearing. -/
theorem generate_roundtrip (now : Int) (events : Store) :
    extractUIDs (generate_ics_free_lines now events) = events.map Prod.fst ∧
    extractSummaries (generate_ics_free_lines now events) =
      events.map (fun p => p.2.subject) :=
  ⟨extract_free_uids now events, extract_free_summaries now events⟩

/-- Claim C10: at a fixed generation clock the free and busy generators
classify every event identically (long-form iff duration at least 23
hours) and produce documents that differ only in the transparency value
of all-day events; events below the threshold receive no transparency
property in either document. -/
theorem free_busy_equiv (now : Int) (events : Store) :
    (generate_ics_free_lines now events).map maskTransp =
      (generate_ics_busy_lines now events).map maskTransp ∧
    (∀ k ev, (k, ev) ∈ events →
      (buildIcsEventFree now k ev).isAllDay =
        (buildIcsEventBusy now k ev).isAllDay ∧
      ((buildIcsEventFree now k ev).isAllDay = true ↔
        23 * 3600 ≤ ev.end_datetime - ev.start_datetime)) ∧
    (∀ line ∈ generate_ics_free_lines now events,
      strStartsWith line "TRANSP:" = true → line = "TRANSP:TRANSPARENT") ∧
    (∀ line ∈ generate_ics_busy_lines now events,
      strStartsWith line "TRANSP:" = true → line = "TRANSP:OPAQUE") ∧
    (∀ k ev, (k, ev) ∈ events →
      ¬ 23 * 3600 ≤ ev.end_datetime - ev.start_datetime →
      (buildIcsEventFree now k ev).transp = none ∧
      (buildIcsEventBusy now k ev).transp = none) := by
  refine ⟨?_, ?_, ?_, ?_, ?_⟩
  · simp only [generate_ics_free_lines, generate_ics_busy_lines,
      renderCalendarLines, List.map_append]
    rw [mask_blocks_eq]
  · intro k ev hmem
    by_cases hth : 23 * 3600 ≤ ev.end_datetime - ev.start_datetime
    · rw [buildIcsEventFree_pos now k ev hth, buildIcsEventBusy_pos now k ev hth]
      simp [hth]
      omega
    · rw [buildIcsEventFree_neg now k ev hth, buildIcsEventBusy_neg now k ev hth]
      simp [hth]
      omega
  · intro line hline
    rcases mem_generate_lines now events buildIcsEventFree hline with
      h | ⟨k, ev, hkv, h⟩
    · intro hs
      rw [header_lines_no_transp line h] at hs
      cases hs
    · exact transp_event_free now k ev line h
  · intro line hline
    rcases mem_generate_lines now events buildIcsEventBusy hline with
      h | ⟨k, ev, hkv, h⟩
    · intro hs
      rw [header_lines_no_transp line h] at hs
      cases hs
    · exact transp_event_busy now k ev line h
  · intro k ev hmem hth
    rw [buildIcsEventFree_neg now k ev hth, buildIcsEventBusy_neg now k ev hth]
    exact ⟨rfl, rfl⟩

/-- Claim C10 witness: applied to a concrete one-event store. -/
theorem free_busy_equiv_witness :
    (("k1", evLong) ∈ [("k1", evLong)]) ∧
    (buildIcsEventFree 0 "k1" evLong).isAllDay =
      (buildIcsEventBusy 0 "k1" evLong).isAllDay :=
  ⟨by decide,
    ((free_busy_equiv 0 [("k1", evLong)]).2.1 "k1" evLong (by decide)).1⟩

/-! Parsing, atomicity and validation. -/

theorem parse_rows_eq_none_of_mem (parseDT : String → Option Int)
    {rows : List Row} {row : Row} (hmem : row ∈ rows)
    (hfail : parse_event parseDT row = none) :
    parse_rows parseDT rows = none := by
  induction rows with
  | nil => simp at hmem
  | cons r rest ih =>
    rcases List.mem_cons.mp hmem with h | h
    · subst h
      simp [parse_rows, hfail]
    · cases hr : parse_event parseDT r <;> simp [parse_rows, hr, ih h]

/-- Claim C3: the sync cycle is atomic for the caller. A ParseError on
any row aborts before any store mutation; a failed commit leaves the
persisted set unchanged; a successful run commits exactly the computed
plan and reports its three lists. -/
theorem sync_events_tx_atomic (parseDT : String → Option Int)
    (commitOk : Bool) (store : Store) (rows : List Row) :
    ((∃ row ∈ rows, parse_event parseDT row = none) →
      sync_events_tx parseDT commitOk store rows = (store, none)) ∧
    (∀ incoming, parse_rows parseDT rows = some incoming →
      (commitOk = false →
        sync_events_tx parseDT commitOk store rows = (store, none)) ∧
      (commitOk = true →
        sync_events_tx parseDT commitOk store rows =
          ((sync_events store incoming).store,
            some ((sync_events store incoming).added,
                  (sync_events store incoming).updated,
                  (sync_events store incoming).deleted)))) := by
  constructor
  · rintro ⟨row, hmem, hfail⟩
    simp [sync_events_tx, parse_rows_eq_none_of_mem parseDT hmem hfail]
  · intro incoming hparse
    constructor
    · rintro rfl
      simp [sync_events_tx, hparse, commit_store]
    · rintro rfl
      simp [sync_events_tx, hparse, commit_store]

/-- Claim C3 witness: a batch whose only row fails to parse leaves a
concrete store exactly as it was, with no summary. -/
theorem sync_events_tx_atomic_witness :
    (∃ row ∈ [rowMeeting], parse_event parseFail row = none) ∧
    sync_events_tx parseFail true [("k", evA)] [rowMeeting] =
      ([("k", evA)], none) :=
  ⟨⟨rowMeeting, List.mem_cons_self _ _, rfl⟩,
    (sync_events_tx_atomic parseFail true [("k", evA)] [rowMeeting]).1
      ⟨rowMeeting, List.mem_cons_self _ _, rfl⟩⟩

/-- Claim C9 counterexample: with six of the seven required columns
missing, validation reports a single reason naming only Subject, the
first missing column; the report does not cover Start Date, which is
also missing. -/
theorem validate_csv_counterexample :
    validate_csv ["Location"] =
      (false, "Missing required column: Subject") ∧
    ("Start Date" ∈ required_columns ∧
      ("Start Date" ∈ (["Location"] : List String) → False)) ∧
    strContains "Missing required column: Subject" "Start Date" = false := by
  decide

/-- Claim C9 (amended): if any required column is absent, validation
fails and reports one human-readable reason naming the first missing
column in the required order; the batch is rejected before any row is
parsed and the store is untouched. If all seven columns are present
validation succeeds; only the header names are inspected, never the cell
values. -/
theorem validate_csv_eq (columns : List String) :
    validate_csv columns =
      match required_columns.find? (fun col => !(columns.contains col)) with
      | some col => (false, "Missing required column: " ++ col)
      | none => (true, "") := rfl

theorem validate_csv_correct (columns : List String) :
    ((validate_csv columns).1 = true ↔
      ∀ col ∈ required_columns, columns.contains col = true) ∧
    (∀ col ∈ required_columns, columns.contains col = false →
      (validate_csv columns).1 = false ∧
      ∃ c ∈ required_columns, columns.contains c = false ∧
        (validate_csv columns).2 = "Missing required column: " ++ c) ∧
    (∀ parseDT commitOk store rows, (validate_csv columns).1 = false →
      process_upload parseDT commitOk store columns rows = (store, none)) := by
  refine ⟨?_, ?_, ?_⟩
  · constructor
    · intro h col hcol
      cases hf : required_columns.find? (fun col => !(columns.contains col)) with
      | some c =>
        rw [validate_csv_eq, hf] at h
        simp at h
      | none =>
        have hall := List.find?_eq_none.mp hf col hcol
        simpa using hall
    · intro h
      cases hf : required_columns.find? (fun col => !(columns.contains col)) with
      | some c =>
        have hc := List.find?_some hf
        have hmem := List.mem_of_find?_eq_some hf
        rw [h c hmem] at hc
        simp at hc
      | none => rw [validate_csv_eq, hf]
  · intro col hcol hmiss
    cases hf : required_columns.find? (fun col => !(columns.contains col)) with
    | none =>
      have hall := List.find?_eq_none.mp hf col hcol
      rw [hmiss] at hall
      simp at hall
    | some c =>
      have hc : columns.contains c = false := by
        have hp := List.find?_some hf
        simpa using hp
      refine ⟨by rw [validate_csv_eq, hf], c, List.mem_of_find?_eq_some hf,
        hc, by rw [validate_csv_eq, hf]⟩
  · intro parseDT commitOk store rows h
    simp [process_upload, h]

/-- Claim C9 witness: the full header list passes validation. -/
theorem validate_csv_correct_witness :
    (∀ col ∈ required_columns,
      (["Subject", "Start Date", "Start Time", "End Date", "End Time",
        "Location", "Description"] : List String).contains col = true) ∧
    (validate_csv ["Subject", "Start Date", "Start Time", "End Date",
      "End Time", "Location", "Description"]).1 = true :=
  ⟨by decide, (validate_csv_correct _).1.mpr (by decide)⟩

/-- Claim C1 witness: a concrete two-key instance with one key to add. -/
theorem sync_events_plan_correct_witness :
    ((([("k1", evA)] : Store).map Prod.fst).Nodup ∧
      (([("k2", evB)] : Store).map Prod.fst).Nodup) ∧
    lookup (sync_events [("k1", evA)] [("k2", evB)]).store "k2" = some evB ∧
    evB.subject ∈ (sync_events [("k1", evA)] [("k2", evB)]).added :=
  ⟨⟨by decide, by decide⟩,
    (sync_events_plan_correct [("k1", evA)] [("k2", evB)] (by decide)
      (by decide)).1 "k2" evB (by decide) (by decide)⟩

/-- Claim C2 witness: re-syncing a concrete one-row batch reports no
changes and leaves the store as it was. -/
theorem sync_events_idempotent_witness :
    ((([("k1", evA)] : Store).map Prod.fst).Nodup ∧
      (([("k2", evB)] : Store).map Prod.fst).Nodup) ∧
    (sync_events (sync_events [("k1", evA)] [("k2", evB)]).store
      [("k2", evB)]).added = [] ∧
    (sync_events (sync_events [("k1", evA)] [("k2", evB)]).store
      [("k2", evB)]).updated = [] ∧
    (sync_events (sync_events [("k1", evA)] [("k2", evB)]).store
      [("k2", evB)]).deleted = [] ∧
    (sync_events (sync_events [("k1", evA)] [("k2", evB)]).store
      [("k2", evB)]).store = (sync_events [("k1", evA)] [("k2", evB)]).store :=
  ⟨⟨by decide, by decide⟩,
    sync_events_idempotent [("k1", evA)] [("k2", evB)] (by decide) (by decide)⟩

/-! URL derivation. -/

theorem splitChar_cons_sep (c : Char) (ys : List Char) :
    splitChar c (c :: ys) = [] :: splitChar c ys := by
  simp [splitChar]

theorem splitChar_append_sep (c : Char) : ∀ (xs ys : List Char), c ∉ xs →
    splitChar c (xs ++ c :: ys) = xs :: splitChar c ys := by
  intro xs
  induction xs with
  | nil => intro ys _; simp [splitChar]
  | cons a rest ih =>
    intro ys hc
    have ha : ¬ a = c := fun h => hc (h ▸ List.mem_cons_self _ _)
    have hrest : c ∉ rest := fun h => hc (List.mem_cons_of_mem _ h)
    simp [splitChar, ha, ih ys hrest]

theorem splitChar_no_sep (c : Char) : ∀ x : List Char, c ∉ x →
    splitChar c x = [x] := by
  intro x
  induction x with
  | nil => intro _; rfl
  | cons a rest ih =>
    intro h
    have ha : ¬ a = c := fun hh => h (hh ▸ List.mem_cons_self _ _)
    have hr : c ∉ rest := fun hh => h (List.mem_cons_of_mem _ hh)
    simp [splitChar, ha, ih hr]

theorem splitChar_joinSlash : ∀ l : List (List Char), l ≠ [] →
    (∀ x ∈ l, '/' ∉ x) → splitChar '/' (joinSlash l) = l := by
  intro l
  induction l with
  | nil => intro h _; exact absurd rfl h
  | cons x rest ih =>
    intro _ hall
    have hx : '/' ∉ x := hall x (List.mem_cons_self _ _)
    cases rest with
    | nil => exact splitChar_no_sep '/' x hx
    | cons y t =>
      have hstep : joinSlash (x :: y :: t) = x ++ '/' :: joinSlash (y :: t) :=
        rfl
      rw [hstep, splitChar_append_sep '/' x _ hx,
        ih (by simp) (fun z hz => hall z (List.mem_cons_of_mem _ hz))]

theorem rawGistUrl_eq (user gid rev file : String) :
    rawGistUrl user gid rev file =
      "https://gist.githubusercontent.com/" ++ user ++ "/" ++ gid ++
        "/raw/" ++ rev ++ "/" ++ file := by
  rw [← strMk_data_self ("https://gist.githubusercontent.com/" ++ user ++
    "/" ++ gid ++ "/raw/" ++ rev ++ "/" ++ file)]
  unfold rawGistUrl
  exact congrArg String.mk (by simp [joinSlash, strData_append])

theorem rawGistUrl_split (user gid rev file : String)
    (hu : '/' ∉ user.data) (hg : '/' ∉ gid.data)
    (hr : '/' ∉ rev.data) (hf : '/' ∉ file.data) :
    splitChar '/' (rawGistUrl user gid rev file).data =
      [("https:" : String).data, [],
       ("gist.githubusercontent.com" : String).data, user.data, gid.data,
       ("raw" : String).data, rev.data, file.data] := by
  unfold rawGistUrl
  refine splitChar_joinSlash _ (by simp) ?_
  intro x hx
  simp only [List.mem_cons, List.not_mem_nil, or_false] at hx
  rcases hx with rfl | rfl | rfl | rfl | rfl | rfl | rfl | rfl
  · decide
  · decide
  · decide
  · exact hu
  · exact hg
  · decide
  · exact hr
  · exact hf

theorem update_free_parts (user gid rev file : String)
    (hu : '/' ∉ user.data) (hg : '/' ∉ gid.data)
    (hr : '/' ∉ rev.data) (hf : '/' ∉ file.data) :
    update_gist_ics_free (rawGistUrl user gid rev file) =
      some ("https://gist.githubusercontent.com/" ++ user ++ "/" ++ gid ++
        "/raw/events-free.ics") := by
  simp only [update_gist_ics_free,
    rawGistUrl_split user gid rev file hu hg hr hf]
  simp [strMk_data_self]

theorem update_busy_parts (user gid rev file : String)
    (hu : '/' ∉ user.data) (hg : '/' ∉ gid.data)
    (hr : '/' ∉ rev.data) (hf : '/' ∉ file.data) :
    update_gist_ics_busy (rawGistUrl user gid rev file) =
      some ("https://gist.githubusercontent.com/" ++ user ++ "/" ++ gid ++
        "/raw/events-busy.ics") := by
  simp only [update_gist_ics_busy,
    rawGistUrl_split user gid rev file hu hg hr hf]
  simp [strMk_data_self]

/-- Claim C7: the stable URL is rebuilt from the owner and collection
segments of the revision-specific raw_url the host returns plus the
fixed slot filename, dropping the revision segment; two successive
publish calls for the same slot therefore return the identical stable
URL string even when the responses embed different revision segments. -/
theorem stable_url_derivation (user gid rev1 rev2 file1 file2 : String)
    (hu : '/' ∉ user.data) (hg : '/' ∉ gid.data) (h1 : '/' ∉ rev1.data)
    (h2 : '/' ∉ rev2.data) (hf1 : '/' ∉ file1.data)
    (hf2 : '/' ∉ file2.data) :
    rawGistUrl user gid rev1 file1 =
      "https://gist.githubusercontent.com/" ++ user ++ "/" ++ gid ++
        "/raw/" ++ rev1 ++ "/" ++ file1 ∧
    update_gist_ics_free (rawGistUrl user gid rev1 file1) =
      some ("https://gist.githubusercontent.com/" ++ user ++ "/" ++ gid ++
        "/raw/events-free.ics") ∧
    update_gist_ics_free (rawGistUrl user gid rev1 file1) =
      update_gist_ics_free (rawGistUrl user gid rev2 file2) ∧
    update_gist_ics_busy (rawGistUrl user gid rev1 file1) =
      some ("https://gist.githubusercontent.com/" ++ user ++ "/" ++ gid ++
        "/raw/events-busy.ics") ∧
    update_gist_ics_busy (rawGistUrl user gid rev1 file1) =
      update_gist_ics_busy (rawGistUrl user gid rev2 file2) := by
  refine ⟨rawGistUrl_eq user gid rev1 file1,
    update_free_parts user gid rev1 file1 hu hg h1 hf1, ?_,
    update_busy_parts user gid rev1 file1 hu hg h1 hf1, ?_⟩
  · rw [update_free_parts user gid rev1 file1 hu hg h1 hf1,
      update_free_parts user gid rev2 file2 hu hg h2 hf2]
  · rw [update_busy_parts user gid rev1 file1 hu hg h1 hf1,
      update_busy_parts user gid rev2 file2 hu hg h2 hf2]

/-- Claim C7 witness: two concrete publish responses with different
revision segments yield the same stable URL. -/
theorem stable_url_derivation_witness :
    (('/' ∈ ("alice" : String).data → False) ∧
      ('/' ∈ ("abc123" : String).data → False) ∧
      ('/' ∈ ("deadbeef" : String).data → False) ∧
      ('/' ∈ ("cafe42" : String).data → False) ∧
      ('/' ∈ ("events-free.ics" : String).data → False)) ∧
    update_gist_ics_free (rawGistUrl "alice" "abc123" "deadbeef"
        "events-free.ics") =
      update_gist_ics_free (rawGistUrl "alice" "abc123" "cafe42"
        "events-free.ics") :=
  ⟨⟨by decide, by decide, by decide, by decide, by decide⟩,
    (stable_url_derivation "alice" "abc123" "deadbeef" "cafe42"
      "events-free.ics" "events-free.ics" (by decide) (by decide) (by decide)
      (by decide) (by decide) (by decide)).2.2.1⟩

theorem parse_event_key (parseDT : String → Option Int) (row : Row)
    (k : String) (e : EventRecord)
    (h : parse_event parseDT row = some (k, e)) :
    k = create_unique_key row := by
  cases h1 : parseDT (row.startDate ++ " " ++ row.startTime) with
  | none => simp [parse_event, h1] at h
  | some s =>
    cases h2 : parseDT (row.endDate ++ " " ++ row.endTime) with
    | none => simp [parse_event, h1, h2] at h
    | some e2 =>
      simp [parse_event, h1, h2] at h
      exact h.1.symm

/-- Claim C8: the natural key is exactly the raw Subject, Start Date and
Start Time strings joined with pipe separators; it is computed from the
unreformatted input strings and does not depend on the parsed date-time
values; the UID emitted for each event equals the stored natural key, so
the document identifiers are stable across regenerations from the same
store. -/
theorem natural_key_stable (parseDT1 parseDT2 : String → Option Int)
    (row : Row) (now1 now2 : Int) (events : Store) :
    create_unique_key row =
      row.subject ++ "|" ++ row.startDate ++ "|" ++ row.startTime ∧
    (∀ k e, parse_event parseDT1 row = some (k, e) →
      k = create_unique_key row) ∧
    (∀ k1 e1 k2 e2, parse_event parseDT1 row = some (k1, e1) →
      parse_event parseDT2 row = some (k2, e2) → k1 = k2) ∧
    extractUIDs (generate_ics_free_lines now1 events) =
      events.map Prod.fst ∧
    extractUIDs (generate_ics_free_lines now1 events) =
      extractUIDs (generate_ics_free_lines now2 events) := by
  refine ⟨rfl, ?_, ?_, extract_free_uids now1 events, ?_⟩
  · intro k e h
    exact parse_event_key parseDT1 row k e h
  · intro k1 e1 k2 e2 ha hb
    rw [parse_event_key parseDT1 row k1 e1 ha,
      parse_event_key parseDT2 row k2 e2 hb]
  · rw [extract_free_uids now1 events, extract_free_uids now2 events]

/-- Claim C8 witness: two parsers assigning different datetimes to the
same row produce the same key, the raw-string concatenation. -/
theorem natural_key_stable_witness :
    (parse_event (fun _ => some 11) rowMeeting =
      some ("Meeting|2024-01-10|09:00",
        { subject := "Meeting", start_datetime := 11, end_datetime := 11,
          location := "Room1", description := "" }) ∧
     parse_event (fun _ => some 77) rowMeeting =
      some ("Meeting|2024-01-10|09:00",
        { subject := "Meeting", start_datetime := 77, end_datetime := 77,
          location := "Room1", description := "" })) ∧
    "Meeting|2024-01-10|09:00" = create_unique_key rowMeeting :=
  ⟨⟨by decide, by decide⟩,
    (natural_key_stable (fun _ => some 11) (fun _ => some 77) rowMeeting 0 0
      []).2.1 "Meeting|2024-01-10|09:00"
      { subject := "Meeting", start_datetime := 11, end_datetime := 11,
        location := "Room1", description := "" } (by decide)⟩

end CalSync
